import Mathlib

/-!
Verification development for the generic IMAP/SMTP/POP3 mail driver.

The definitions below are a shallow embedding of the TypeScript sources:
  apps/server/src/lib/driver/genericMail.ts   (GenericMailManager)
  apps/server/src/lib/driver/imap.service.ts  (ImapService)
  apps/server/src/lib/driver/pop3.service.ts  (Pop3Service)
  apps/server/src/lib/driver/smtp.service.ts  (SmtpService)

Modelling conventions:
  - Remote protocol exchanges are modelled by an explicit server state
    (mailboxes holding messages) plus a fault-injection record `Faults`
    saying which protocol commands throw during the call under study.
  - Every operation returns a trace of protocol events (`Ev`), an
    `Except JsError` result mirroring resolve/reject of the TS promises,
    and the updated state.  A thrown JS error is `Except.error`.
  - JS truthiness of optional numbers and strings is modelled explicitly
    (`truthyN`, and empty strings being falsy where the source tests them).
-/

/-- Errors as raised by the driver: raw protocol-library errors, and the
driver's StandardizedError (message, http-ish code, optional cause). -/
inductive JsError where
  | protocol (msg : String)
  | standardized (msg : String) (code : Nat) (cause : Option JsError)

/-- Protocol events emitted by the services; each event is one command
issued on the wire (or a lock acquisition/release on the IMAP client). -/
inductive Ev where
  | connectAttempt
  | lockAcquire (mb : String)
  | lockRelease (mb : String)
  | imapStatus (mb : String)
  | imapFetch (mb : String) (a b : Nat)
  | imapFetchOne (mb : String) (uid : String)
  | flagsAdd (mb : String) (uid : String) (flagList : List String)
  | flagsRemove (mb : String) (uid : String) (flagList : List String)
  | imapMove (mb : String) (uid : String) (dest : String)
  | imapDownload (mb : String) (uid : String) (part : String)
  | imapLogout
  | pop3List
  | pop3Retr (n : Option Nat)
  | pop3Quit
  | smtpSend
  deriving DecidableEq, Repr

/-- One stored IMAP message.  Envelope address lists are kept as plain
address strings; date, size and raw body structure are omitted because no
claim mentions them.  `attachments` maps a part id to its byte content. -/
structure ImapMessage where
  uid : Nat
  flags : List String
  subject : String
  toAddrs : List String
  ccAddrs : List String
  bccAddrs : List String
  textBody : Option String
  htmlBody : Option String
  attachments : List (String × String)
  deriving DecidableEq, Repr

/-- The remote IMAP server: named mailboxes, each a sequence of messages
(sequence number of a message = its 1-based position in the list). -/
structure ImapServer where
  mailboxes : List (String × List ImapMessage)
  deriving DecidableEq, Repr

/-- imapflow client connection state: `usable`, and whether the client
state machine sits in its LOGOUT state. -/
structure ImapClient where
  usable : Bool
  loggedOut : Bool
  deriving DecidableEq, Repr

structure ImapState where
  client : ImapClient
  server : ImapServer
  deriving DecidableEq, Repr

/-- Which protocol commands throw during the call under study. -/
structure Faults where
  connectFail : Bool
  lockFail : Bool
  statusFail : Bool
  fetchFail : Bool
  storeFail : Bool
  moveFail : Bool
  downloadFail : Bool
  logoutFail : Bool
  pop3ListFail : Bool
  pop3RetrFail : Bool
  smtpFail : Bool
  deriving DecidableEq, Repr

/-- The all-succeed fault assignment. -/
def Faults.none : Faults :=
  ⟨false, false, false, false, false, false, false, false, false, false, false⟩

/-- Result of an ImapService call: event trace, resolve/reject outcome,
updated client+server state. -/
structure SRes (α : Type) where
  trace : List Ev
  result : Except JsError α
  state : ImapState

/-- JS truthiness for an optional number argument (undefined and 0 are
falsy), as tested by listMessages' startSeq/count conditionals. -/
def truthyN : Option Nat → Bool
  | Option.none => false
  | some n => n != 0

/-- Lookup of a mailbox by path; an unknown mailbox reads as empty. -/
def getMb (srv : ImapServer) (mb : String) : List ImapMessage :=
  match srv.mailboxes.find? (fun p => p.1 == mb) with
  | some p => p.2
  | Option.none => []

/-- Replace (or create) a mailbox's message list. -/
def setMb (srv : ImapServer) (mb : String) (msgs : List ImapMessage) : ImapServer :=
  if srv.mailboxes.any (fun p => p.1 == mb) then
    ⟨srv.mailboxes.map (fun p => if p.1 == mb then (mb, msgs) else p)⟩
  else ⟨srv.mailboxes ++ [(mb, msgs)]⟩

/-- Find a message by its UID rendered as a string (the driver passes
UIDs around as strings). -/
def findUid (l : List ImapMessage) (uid : String) : Option ImapMessage :=
  l.find? (fun m => toString m.uid == uid)

/-- Server effect of messageFlagsAdd: union the flags onto the message. -/
def addFlagsSrv (srv : ImapServer) (mb uid : String) (fl : List String) : ImapServer :=
  setMb srv mb ((getMb srv mb).map (fun m =>
    if toString m.uid == uid then
      { m with flags := m.flags ++ fl.filter (fun x => !(m.flags.contains x)) }
    else m))

/-- Server effect of messageFlagsRemove. -/
def removeFlagsSrv (srv : ImapServer) (mb uid : String) (fl : List String) : ImapServer :=
  setMb srv mb ((getMb srv mb).map (fun m =>
    if toString m.uid == uid then
      { m with flags := m.flags.filter (fun x => !(fl.contains x)) }
    else m))

/-- Server effect of messageMove: remove from source, append to target
(a move of an absent UID is a server no-op). -/
def applyMove (srv : ImapServer) (mb uid dest : String) : ImapServer :=
  match findUid (getMb srv mb) uid with
  | Option.none => srv
  | some m =>
    let srv2 := setMb srv mb ((getMb srv mb).filter (fun m2 => !(toString m2.uid == uid)))
    setMb srv2 dest (getMb srv2 dest ++ [m])

/-- Messages of a mailbox with sequence numbers in [a, b] (1-based). -/
def seqSlice (l : List ImapMessage) (a b : Nat) : List ImapMessage :=
  (l.drop (a - 1)).take (b + 1 - a)

/-- Basic per-message record returned by ImapService.listMessages
(envelope collapsed to its subject; size omitted). -/
structure BasicMessageInfo where
  uid : Nat
  flags : List String
  subject : String
  deriving DecidableEq, Repr

def toBasicInfo (m : ImapMessage) : BasicMessageInfo :=
  ⟨m.uid, m.flags, m.subject⟩

namespace ImapService

/-- ImapService.connect: no-op when the client is already usable,
otherwise performs the handshake+login (the connectAttempt event). -/
def connect (c : ImapClient) (f : Faults) : List Ev × Except JsError ImapClient :=
  if c.usable then ([], .ok c)
  else if f.connectFail then ([.connectAttempt], .error (.protocol "connect"))
  else ([.connectAttempt], .ok ⟨true, false⟩)

/-- ImapService.connectIfNeeded: reconnect-before-use check. -/
def connectIfNeeded (c : ImapClient) (f : Faults) : List Ev × Except JsError ImapClient :=
  if !c.usable || c.loggedOut then connect c f
  else ([], .ok c)

/-- ImapService.disconnect: already-disconnected check, then a
best-effort logout whose error is logged and not re-thrown. -/
def disconnect (s : ImapState) (f : Faults) : SRes Unit :=
  if !s.client.usable && s.client.loggedOut then ⟨[], .ok (), s⟩
  else if f.logoutFail then ⟨[.imapLogout], .ok (), s⟩
  else ⟨[.imapLogout], .ok (), { s with client := ⟨false, true⟩ }⟩

/-- ImapService.listMessages: connectIfNeeded, acquire the mailbox lock,
select the sequence range exactly as the source does (startSeq+count
range; else last count messages via a STATUS round trip; else 1:100),
fetch, and release the lock on every path (the try/finally is unrolled:
each branch ends with the lockRelease event when the lock was taken). -/
def listMessages (s : ImapState) (f : Faults) (mailboxPath : String)
    (startSeq countOpt : Option Nat) : SRes (List BasicMessageInfo) :=
  match connectIfNeeded s.client f with
  | (ct, .error e) => ⟨ct, .error e, s⟩
  | (ct, .ok c) =>
    let s1 : ImapState := { s with client := c }
    if f.lockFail then ⟨ct, .error (.protocol "getMailboxLock"), s1⟩
    else
      let mbox := getMb s1.server mailboxPath
      if truthyN startSeq && truthyN countOpt then
        let a := startSeq.getD 0
        let b := a + countOpt.getD 0 - 1
        if f.fetchFail then
          ⟨ct ++ [.lockAcquire mailboxPath, .imapFetch mailboxPath a b, .lockRelease mailboxPath],
            .error (.protocol "fetch"), s1⟩
        else
          ⟨ct ++ [.lockAcquire mailboxPath, .imapFetch mailboxPath a b, .lockRelease mailboxPath],
            .ok ((seqSlice mbox a b).map toBasicInfo), s1⟩
      else if truthyN countOpt then
        if f.statusFail then
          ⟨ct ++ [.lockAcquire mailboxPath, .imapStatus mailboxPath, .lockRelease mailboxPath],
            .error (.protocol "status"), s1⟩
        else
          let total := mbox.length
          if total > 0 then
            let a := max 1 (total - countOpt.getD 0 + 1)
            if f.fetchFail then
              ⟨ct ++ [.lockAcquire mailboxPath, .imapStatus mailboxPath,
                  .imapFetch mailboxPath a total, .lockRelease mailboxPath],
                .error (.protocol "fetch"), s1⟩
            else
              ⟨ct ++ [.lockAcquire mailboxPath, .imapStatus mailboxPath,
                  .imapFetch mailboxPath a total, .lockRelease mailboxPath],
                .ok ((seqSlice mbox a total).map toBasicInfo), s1⟩
          else
            ⟨ct ++ [.lockAcquire mailboxPath, .imapStatus mailboxPath, .lockRelease mailboxPath],
              .ok [], s1⟩
      else
        if f.fetchFail then
          ⟨ct ++ [.lockAcquire mailboxPath, .imapFetch mailboxPath 1 100, .lockRelease mailboxPath],
            .error (.protocol "fetch"), s1⟩
        else
          ⟨ct ++ [.lockAcquire mailboxPath, .imapFetch mailboxPath 1 100, .lockRelease mailboxPath],
            .ok ((seqSlice mbox 1 100).map toBasicInfo), s1⟩

/-- ImapService.fetchMessage: lock, fetchOne by UID (null when the
server has no such message), body parts folded into the stored message,
lock released on every path. -/
def fetchMessage (s : ImapState) (f : Faults) (mailboxPath uid : String) :
    SRes (Option ImapMessage) :=
  match connectIfNeeded s.client f with
  | (ct, .error e) => ⟨ct, .error e, s⟩
  | (ct, .ok c) =>
    let s1 : ImapState := { s with client := c }
    if f.lockFail then ⟨ct, .error (.protocol "getMailboxLock"), s1⟩
    else if f.fetchFail then
      ⟨ct ++ [.lockAcquire mailboxPath, .imapFetchOne mailboxPath uid, .lockRelease mailboxPath],
        .error (.protocol "fetchOne"), s1⟩
    else
      ⟨ct ++ [.lockAcquire mailboxPath, .imapFetchOne mailboxPath uid, .lockRelease mailboxPath],
        .ok (findUid (getMb s1.server mailboxPath) uid), s1⟩

/-- ImapService.downloadAttachment: lock, download one part
(content or null), lock released on every path. -/
def downloadAttachment (s : ImapState) (f : Faults) (mailboxPath uid partID : String) :
    SRes (Option String) :=
  match connectIfNeeded s.client f with
  | (ct, .error e) => ⟨ct, .error e, s⟩
  | (ct, .ok c) =>
    let s1 : ImapState := { s with client := c }
    if f.lockFail then ⟨ct, .error (.protocol "getMailboxLock"), s1⟩
    else if f.downloadFail then
      ⟨ct ++ [.lockAcquire mailboxPath, .imapDownload mailboxPath uid partID, .lockRelease mailboxPath],
        .error (.protocol "download"), s1⟩
    else
      ⟨ct ++ [.lockAcquire mailboxPath, .imapDownload mailboxPath uid partID, .lockRelease mailboxPath],
        .ok ((findUid (getMb s1.server mailboxPath) uid).bind
          (fun m => (m.attachments.find? (fun p => p.1 == partID)).map (fun p => p.2))), s1⟩

/-- ImapService.setFlags: lock, messageFlagsAdd, unconditional release. -/
def setFlags (s : ImapState) (f : Faults) (mailboxPath uidOrRange : String)
    (flagsToSet : List String) : SRes Unit :=
  match connectIfNeeded s.client f with
  | (ct, .error e) => ⟨ct, .error e, s⟩
  | (ct, .ok c) =>
    let s1 : ImapState := { s with client := c }
    if f.lockFail then ⟨ct, .error (.protocol "getMailboxLock"), s1⟩
    else if f.storeFail then
      ⟨ct ++ [.lockAcquire mailboxPath, .flagsAdd mailboxPath uidOrRange flagsToSet,
          .lockRelease mailboxPath],
        .error (.protocol "messageFlagsAdd"), s1⟩
    else
      ⟨ct ++ [.lockAcquire mailboxPath, .flagsAdd mailboxPath uidOrRange flagsToSet,
          .lockRelease mailboxPath],
        .ok (), { s1 with server := addFlagsSrv s1.server mailboxPath uidOrRange flagsToSet }⟩

/-- ImapService.unsetFlags: lock, messageFlagsRemove, unconditional release. -/
def unsetFlags (s : ImapState) (f : Faults) (mailboxPath uidOrRange : String)
    (flagsToUnset : List String) : SRes Unit :=
  match connectIfNeeded s.client f with
  | (ct, .error e) => ⟨ct, .error e, s⟩
  | (ct, .ok c) =>
    let s1 : ImapState := { s with client := c }
    if f.lockFail then ⟨ct, .error (.protocol "getMailboxLock"), s1⟩
    else if f.storeFail then
      ⟨ct ++ [.lockAcquire mailboxPath, .flagsRemove mailboxPath uidOrRange flagsToUnset,
          .lockRelease mailboxPath],
        .error (.protocol "messageFlagsRemove"), s1⟩
    else
      ⟨ct ++ [.lockAcquire mailboxPath, .flagsRemove mailboxPath uidOrRange flagsToUnset,
          .lockRelease mailboxPath],
        .ok (), { s1 with server := removeFlagsSrv s1.server mailboxPath uidOrRange flagsToUnset }⟩

/-- ImapService.moveMessage: lock source mailbox, UID-based move,
unconditional release. -/
def moveMessage (s : ImapState) (f : Faults) (mailboxPath uid destinationMailboxPath : String) :
    SRes Unit :=
  match connectIfNeeded s.client f with
  | (ct, .error e) => ⟨ct, .error e, s⟩
  | (ct, .ok c) =>
    let s1 : ImapState := { s with client := c }
    if f.lockFail then ⟨ct, .error (.protocol "getMailboxLock"), s1⟩
    else if f.moveFail then
      ⟨ct ++ [.lockAcquire mailboxPath, .imapMove mailboxPath uid destinationMailboxPath,
          .lockRelease mailboxPath],
        .error (.protocol "messageMove"), s1⟩
    else
      ⟨ct ++ [.lockAcquire mailboxPath, .imapMove mailboxPath uid destinationMailboxPath,
          .lockRelease mailboxPath],
        .ok (), { s1 with server := applyMove s1.server mailboxPath uid destinationMailboxPath }⟩

end ImapService

namespace Pop3Service

/-- Pop3Service.listMessages: on a successful LIST response with message
count n the handler pushes i+1 for i in [0, n) and resolves; a failed
LIST rejects. -/
def listMessages (msgs : List String) (f : Faults) : List Ev × Except JsError (List Nat) :=
  if f.pop3ListFail then ([.pop3List], .error (.protocol "POP3 LIST failed"))
  else ([.pop3List], .ok ((List.range msgs.length).map (fun i => i + 1)))

/-- Pop3Service.fetchMessage: RETR one sequence number; the server
rejects for an out-of-range or non-numeric number (NaN), or when the
injected fault fires. -/
def fetchMessage (msgs : List String) (f : Faults) (n : Option Nat) :
    List Ev × Except JsError String :=
  ([.pop3Retr n],
    if f.pop3RetrFail then .error (.protocol "POP3 RETR failed")
    else
      match n with
      | some (Nat.succ k) =>
        match msgs.get? k with
        | some raw => .ok raw
        | Option.none => .error (.protocol "POP3 RETR failed")
      | some 0 => .error (.protocol "POP3 RETR failed")
      | Option.none => .error (.protocol "POP3 RETR failed"))

/-- Pop3Service.quit: best-effort QUIT; the source neither awaits nor
propagates any error from it. -/
def quit : List Ev × Except JsError Unit :=
  ([.pop3Quit], .ok ())

end Pop3Service

/-! ## Generic mail manager (composition layer) -/

/-- Unified label record (source: Label with fields id, name, type). -/
structure LabelT where
  id : String
  name : String
  ltype : String
  deriving DecidableEq, Repr

/-- Provider-neutral message view.  Date, address and attachment fields
of the source are omitted: no claim mentions them. -/
structure ParsedMessage where
  id : String
  threadId : String
  mailbox : String
  subject : String
  bodyPlain : Option String
  bodyHtml : Option String
  read : Bool
  labels : List LabelT
  isDraft : Bool
  deriving DecidableEq, Repr

/-- Result of GenericMailManager.get (IGetThreadResponse). -/
structure GetThreadResponse where
  messages : List ParsedMessage
  latest : ParsedMessage
  hasUnread : Bool
  totalReplies : Nat
  labels : List LabelT
  deriving DecidableEq, Repr

/-- Result of GenericMailManager.list: thread ids (the source returns
records carrying only an id) and the page token. -/
structure ListResult where
  threads : List String
  nextPageToken : Option String
  deriving DecidableEq, Repr

/-- Result of GenericMailManager.getDraft (ParsedDraft). -/
structure ParsedDraft where
  id : String
  toAddrs : List String
  ccAddrs : List String
  bccAddrs : List String
  subject : String
  content : Option String
  deriving DecidableEq, Repr

/-- Manager-level world: the IMAP client/server pair, and the POP3
mailbox content when (and only when) a POP3 session is configured. -/
structure World where
  imap : ImapState
  pop3 : Option (List String)

/-- Result of a manager call: trace, resolve/reject outcome, new world. -/
structure MRes (α : Type) where
  trace : List Ev
  result : Except JsError α
  world : World

/-- JS `a || b` on string-or-undefined values: an empty string is falsy. -/
def jsOrStr : Option String → Option String → Option String
  | some s, b => if s = "" then b else some s
  | Option.none, b => b

/-- Decimal digit value of a character, if any. -/
def digitVal (c : Char) : Option Nat :=
  if '0' ≤ c ∧ c ≤ '9' then some (c.toNat - '0'.toNat) else Option.none

def jsNumberAux : List Char → Nat → Option Nat
  | [], acc => some acc
  | c :: rest, acc =>
    match digitVal c with
    | some d => jsNumberAux rest (acc * 10 + d)
    | Option.none => Option.none

/-- Models Number(id) for the driver's ids: strings of decimal digits
parse to the number; anything else behaves as NaN, modelled as none.
(Number of the empty string is 0 in JS; RETR 0 fails just like RETR of
NaN, so collapsing it into the failing branch preserves behavior.) -/
def jsNumber (s : String) : Option Nat :=
  match s.data with
  | [] => Option.none
  | l => jsNumberAux l 0

/-- Source helper: prettify system flags (drop one leading backslash). -/
def dropLeadingBackslash (s : String) : String :=
  if s.startsWith "\\" then s.drop 1 else s

namespace GenericMailManager

/-- GenericMailManager.mapImapMessageToParsedMessage. -/
def mapImapMessageToParsedMessage (msg : ImapMessage) (mailbox : String) : ParsedMessage :=
  { id := toString msg.uid
    threadId := toString msg.uid
    mailbox := mailbox
    subject := msg.subject
    bodyPlain := msg.textBody
    bodyHtml := msg.htmlBody
    read := msg.flags.contains "\\Seen"
    labels := msg.flags.map (fun fl => ⟨fl, dropLeadingBackslash fl, "system"⟩)
    isDraft := msg.flags.contains "\\Draft" }

/-- One parsed header line: text before the first colon (trimmed,
lower-cased) and the rest (the source uses indexOf plus slices). -/
def parseHeaderLine (line : String) : Option (String × String) :=
  match line.splitOn ":" with
  | [] => Option.none
  | [_] => Option.none
  | key :: rest => some (key.trim.toLower, (String.intercalate ":" rest).trim)

/-- GenericMailManager.parsePop3Message: split the raw text at the first
blank line (the source's regex split, with line endings normalized),
parse the header block, and build a ParsedMessage with read = false and
no labels. -/
def parsePop3Message (raw : String) (id : String) : ParsedMessage :=
  let normalized := (raw.replace "\r\n" "\n").splitOn "\n\n"
  let headerPart := normalized.headD ""
  let body := String.intercalate "\n\n" normalized.tail
  let entries := (headerPart.splitOn "\n").filterMap parseHeaderLine
  let subject := ((entries.filter (fun p => p.1 == "subject")).getLast?.map
    (fun p => p.2)).getD ""
  { id := id
    threadId := id
    mailbox := "INBOX"
    subject := subject
    bodyPlain := some body
    bodyHtml := Option.none
    read := false
    labels := []
    isDraft := false }

/-- GenericMailManager.get: POP3 fetch (errors caught to null, then the
falsy check raises 404) when POP3 is configured, else IMAP fetch from
the hardcoded INBOX. -/
def get (w : World) (f : Faults) (id : String) : MRes GetThreadResponse :=
  match w.pop3 with
  | some msgs =>
    let r := Pop3Service.fetchMessage msgs f (jsNumber id)
    match r.2 with
    | .error _ =>
      ⟨r.1, .error (.standardized "Message not found" 404 Option.none), w⟩
    | .ok raw =>
      if raw = "" then
        ⟨r.1, .error (.standardized "Message not found" 404 Option.none), w⟩
      else
        let p := parsePop3Message raw id
        ⟨r.1, .ok { messages := [p], latest := p, hasUnread := true,
                    totalReplies := 0, labels := [] }, w⟩
  | Option.none =>
    let r := ImapService.fetchMessage w.imap f "INBOX" id
    let w2 : World := { w with imap := r.state }
    match r.result with
    | .error e => ⟨r.trace, .error e, w2⟩
    | .ok Option.none =>
      ⟨r.trace, .error (.standardized "Message not found" 404 Option.none), w2⟩
    | .ok (some m) =>
      let p := mapImapMessageToParsedMessage m "INBOX"
      ⟨r.trace, .ok { messages := [p], latest := p,
                      hasUnread := !(m.flags.contains "\\Seen"),
                      totalReplies := 0,
                      labels := m.flags.map (fun fl => ⟨fl, fl, "system"⟩) }, w2⟩

/-- GenericMailManager.list: POP3 sequence enumeration when configured
(each number becomes a record with uid = number and no flags), else
ImapService.listMessages; then the shared thread-id mapping and the
page-token rule (token = last uid + 1 exactly when the page is nonempty,
maxResults is truthy, and the count equals maxResults). -/
def list (w : World) (f : Faults) (folder : String)
    (pageToken maxResults : Option Nat) : MRes ListResult :=
  let step : MRes (List BasicMessageInfo) :=
    match w.pop3 with
    | some msgs =>
      match Pop3Service.listMessages msgs f with
      | (t, .error e) => ⟨t, .error e, w⟩
      | (t, .ok nums) => ⟨t, .ok (nums.map (fun n => ⟨n, [], ""⟩)), w⟩
    | Option.none =>
      let r := ImapService.listMessages w.imap f folder pageToken maxResults
      ⟨r.trace, r.result, { w with imap := r.state }⟩
  match step with
  | ⟨t, .error e, w2⟩ => ⟨t, .error e, w2⟩
  | ⟨t, .ok messages, w2⟩ =>
    let threads := messages.map (fun m => toString m.uid)
    let tok : Option String :=
      if messages.length > 0 && truthyN maxResults
          && (messages.length == maxResults.getD 0) then
        match messages.getLast? with
        | some m => some (toString (m.uid + 1))
        | Option.none => Option.none
      else Option.none
    ⟨t, .ok ⟨threads, tok⟩, w2⟩

/-- Loop body of GenericMailManager.markAsRead: setFlags INBOX \Seen for
each id in order, stopping at the first thrown error. -/
def markAsReadGo (f : Faults) : List String → ImapState → SRes Unit
  | [], s => ⟨[], .ok (), s⟩
  | id :: rest, s =>
    let r := ImapService.setFlags s f "INBOX" id ["\\Seen"]
    match r.result with
    | .ok _ =>
      let r2 := markAsReadGo f rest r.state
      ⟨r.trace ++ r2.trace, r2.result, r2.state⟩
    | .error e => ⟨r.trace, .error e, r.state⟩

/-- GenericMailManager.markAsRead. -/
def markAsRead (w : World) (f : Faults) (threadIds : List String) : MRes Unit :=
  let r := markAsReadGo f threadIds w.imap
  ⟨r.trace, r.result, { w with imap := r.state }⟩

/-- Loop body of GenericMailManager.markAsUnread (unsetFlags \Seen). -/
def markAsUnreadGo (f : Faults) : List String → ImapState → SRes Unit
  | [], s => ⟨[], .ok (), s⟩
  | id :: rest, s =>
    let r := ImapService.unsetFlags s f "INBOX" id ["\\Seen"]
    match r.result with
    | .ok _ =>
      let r2 := markAsUnreadGo f rest r.state
      ⟨r.trace ++ r2.trace, r2.result, r2.state⟩
    | .error e => ⟨r.trace, .error e, r.state⟩

/-- GenericMailManager.markAsUnread. -/
def markAsUnread (w : World) (f : Faults) (threadIds : List String) : MRes Unit :=
  let r := markAsUnreadGo f threadIds w.imap
  ⟨r.trace, r.result, { w with imap := r.state }⟩

/-- GenericMailManager.delete: move INBOX/id to Trash; on a thrown move,
set the \Deleted flag on the source message and re-throw the original
move error wrapped in a StandardizedError with code 500 (the catch block
awaits setFlags first, so a fallback that itself throws propagates that
later error instead). -/
def delete (w : World) (f : Faults) (id : String) : MRes Unit :=
  let r := ImapService.moveMessage w.imap f "INBOX" id "Trash"
  match r.result with
  | .ok _ => ⟨r.trace, .ok (), { w with imap := r.state }⟩
  | .error e =>
    let r2 := ImapService.setFlags r.state f "INBOX" id ["\\Deleted"]
    match r2.result with
    | .ok _ =>
      ⟨r.trace ++ r2.trace,
        .error (.standardized "Failed to move message to trash and fallback also problematic"
          500 (some e)),
        { w with imap := r2.state }⟩
    | .error e2 => ⟨r.trace ++ r2.trace, .error e2, { w with imap := r2.state }⟩

/-- GenericMailManager.getAttachment: download from the hardcoded INBOX;
undefined when the part is absent, else the streamed content (the
base64 re-encoding is modelled as the identity on the content). -/
def getAttachment (w : World) (f : Faults) (messageId attachmentId : String) :
    MRes (Option String) :=
  let r := ImapService.downloadAttachment w.imap f "INBOX" messageId attachmentId
  ⟨r.trace, r.result, { w with imap := r.state }⟩

/-- GenericMailManager.createDraft: the source only builds a raw text
block, logs a warning, and mocks success (the Date.now id suffix is
dropped); its catch block is unreachable. -/
def createDraft (w : World) : MRes (Option String × Option Bool) :=
  ⟨[], .ok (some "mockDraft", some true), w⟩

/-- GenericMailManager.getDraft: fetch from the hardcoded Drafts folder;
404 when the message is missing or lacks the \Draft flag; content is
textBody || htmlBody (JS truthiness). -/
def getDraft (w : World) (f : Faults) (id : String) : MRes ParsedDraft :=
  let r := ImapService.fetchMessage w.imap f "Drafts" id
  let w2 : World := { w with imap := r.state }
  match r.result with
  | .error e => ⟨r.trace, .error e, w2⟩
  | .ok Option.none =>
    ⟨r.trace, .error (.standardized "Draft not found or not a draft" 404 Option.none), w2⟩
  | .ok (some m) =>
    if m.flags.contains "\\Draft" then
      ⟨r.trace, .ok ⟨toString m.uid, m.toAddrs, m.ccAddrs, m.bccAddrs, m.subject,
        jsOrStr m.textBody m.htmlBody⟩, w2⟩
    else
      ⟨r.trace, .error (.standardized "Draft not found or not a draft" 404 Option.none), w2⟩

/-- GenericMailManager.listDrafts delegates to list with the Drafts
folder forced. -/
def listDrafts (w : World) (f : Faults) (pageToken maxResults : Option Nat) : MRes ListResult :=
  list w f "Drafts" pageToken maxResults

/-- GenericMailManager.create: one SMTP send (composition fields are
irrelevant to the claims; the returned message id is a constant). -/
def create (w : World) (f : Faults) : MRes (Option String) :=
  if f.smtpFail then ⟨[.smtpSend], .error (.protocol "sendMail"), w⟩
  else ⟨[.smtpSend], .ok (some "messageId"), w⟩

/-- GenericMailManager.sendDraft: send via SMTP, then mark the draft
\Deleted in Drafts; a failure of that flag write is wrapped with code
500 and re-thrown. -/
def sendDraft (w : World) (f : Faults) (id : String) : MRes Unit :=
  let r := create w f
  match r.result with
  | .error e => ⟨r.trace, .error e, r.world⟩
  | .ok _ =>
    let r2 := ImapService.setFlags r.world.imap f "Drafts" id ["\\Deleted"]
    match r2.result with
    | .ok _ => ⟨r.trace ++ r2.trace, .ok (), { r.world with imap := r2.state }⟩
    | .error e2 =>
      ⟨r.trace ++ r2.trace,
        .error (.standardized "Failed to delete draft after sending" 500 (some e2)),
        { r.world with imap := r2.state }⟩

/-- Sequencing helper for the per-id body of modifyLabels: models the
sequential awaits, where a thrown error aborts the rest. -/
def seqRes (r : SRes Unit) (k : ImapState → SRes Unit) : SRes Unit :=
  match r.result with
  | .ok _ =>
    let r2 := k r.state
    ⟨r.trace ++ r2.trace, r2.result, r2.state⟩
  | .error e => ⟨r.trace, .error e, r.state⟩

/-- Skip (no protocol exchange) for an un-triggered conditional. -/
def skipRes (s : ImapState) : SRes Unit := ⟨[], .ok (), s⟩

/-- Per-id body of GenericMailManager.modifyLabels, exactly mirroring
the source's conditionals: STARRED/IMPORTANT flag stores, then the
folder moves (TRASH wins over the INBOX-removal archive move). -/
def modifyLabelsOne (f : Faults) (addLabels removeLabels : List String)
    (id : String) (s : ImapState) : SRes Unit :=
  seqRes (if addLabels.contains "STARRED"
      then ImapService.setFlags s f "INBOX" id ["\\Starred"] else skipRes s) (fun s1 =>
  seqRes (if addLabels.contains "IMPORTANT"
      then ImapService.setFlags s1 f "INBOX" id ["\\Flagged"] else skipRes s1) (fun s2 =>
  seqRes (if removeLabels.contains "STARRED"
      then ImapService.unsetFlags s2 f "INBOX" id ["\\Starred"] else skipRes s2) (fun s3 =>
  seqRes (if removeLabels.contains "IMPORTANT"
      then ImapService.unsetFlags s3 f "INBOX" id ["\\Flagged"] else skipRes s3) (fun s4 =>
  if addLabels.contains "TRASH" then
    ImapService.moveMessage s4 f "INBOX" id "Trash"
  else if removeLabels.contains "INBOX" && !(addLabels.contains "TRASH") then
    ImapService.moveMessage s4 f "INBOX" id "Archive"
  else skipRes s4))))

/-- Loop of GenericMailManager.modifyLabels over the ids. -/
def modifyLabelsGo (f : Faults) (addLabels removeLabels : List String) :
    List String → ImapState → SRes Unit
  | [], s => ⟨[], .ok (), s⟩
  | id :: rest, s =>
    let r := modifyLabelsOne f addLabels removeLabels id s
    match r.result with
    | .ok _ =>
      let r2 := modifyLabelsGo f addLabels removeLabels rest r.state
      ⟨r.trace ++ r2.trace, r2.result, r2.state⟩
    | .error e => ⟨r.trace, .error e, r.state⟩

/-- GenericMailManager.modifyLabels. -/
def modifyLabels (w : World) (f : Faults) (ids : List String)
    (addLabels removeLabels : List String) : MRes Unit :=
  let r := modifyLabelsGo f addLabels removeLabels ids w.imap
  ⟨r.trace, r.result, { w with imap := r.state }⟩

end GenericMailManager

/-! ## Theorems -/

/-- C9: Pop3Service.listMessages resolves with exactly the consecutive
sequence numbers 1..N (N = the message count the server reports): the
result list has one entry per message and its k-th entry is k+1; it
rejects when the LIST command fails. -/
theorem pop3_listMessages_spec (msgs : List String) (f : Faults) :
    (f.pop3ListFail = false →
      ∃ l, (Pop3Service.listMessages msgs f).2 = .ok l ∧
        l = List.range' 1 msgs.length ∧
        l.length = msgs.length ∧
        (∀ k : Nat, k < msgs.length → l[k]? = some (k + 1))) ∧
    (f.pop3ListFail = true →
      ∃ e, (Pop3Service.listMessages msgs f).2 = .error e) := by
  constructor
  · intro h
    refine ⟨(List.range msgs.length).map (fun i => i + 1), ?_, ?_, ?_, ?_⟩
    · simp [Pop3Service.listMessages, h]
    · rw [List.range'_eq_map_range]
      exact List.map_congr_left (fun i _ => Nat.add_comm i 1)
    · simp
    · intro k hk
      simp [List.getElem?_map, List.getElem?_range, hk]
  · intro h
    exact ⟨JsError.protocol "POP3 LIST failed", by simp [Pop3Service.listMessages, h]⟩

theorem pop3_listMessages_witness :
    (Pop3Service.listMessages ["a", "b"] Faults.none).2 = Except.ok [1, 2] := by
  obtain ⟨l, hl, hr, _, _⟩ := (pop3_listMessages_spec ["a", "b"] Faults.none).1 rfl
  rw [hl, hr]
  rfl

/-- C6: connect is idempotent: on a usable client it performs no
handshake and no authentication (empty trace, state unchanged); after a
successful connect any further connect is such a no-op; and the
reconnect-before-use check calls connect exactly when the client is not
usable or has logged out. -/
theorem connect_idempotent_spec :
    (∀ (c : ImapClient) (f : Faults), c.usable = true →
      ImapService.connect c f = ([], .ok c)) ∧
    (∀ (c c2 : ImapClient) (f : Faults) (t : List Ev),
      ImapService.connect c f = (t, .ok c2) →
      ∀ f2 : Faults, ImapService.connect c2 f2 = ([], .ok c2)) ∧
    (∀ (c : ImapClient) (f : Faults), c.usable = false ∨ c.loggedOut = true →
      ImapService.connectIfNeeded c f = ImapService.connect c f) ∧
    (∀ (c : ImapClient) (f : Faults), c.usable = true → c.loggedOut = false →
      ImapService.connectIfNeeded c f = ([], .ok c)) := by
  refine ⟨?_, ?_, ?_, ?_⟩
  · intro c f h
    simp [ImapService.connect, h]
  · intro c c2 f t h f2
    by_cases hu : c.usable
    · simp only [ImapService.connect, hu, if_true] at h
      injection h with h1 h2
      injection h2 with h3
      subst h3
      simp [ImapService.connect, hu]
    · cases hcf : f.connectFail
      · simp only [ImapService.connect, hu, hcf, Bool.false_eq_true, if_false] at h
        injection h with h1 h2
        injection h2 with h3
        subst h3
        simp [ImapService.connect]
      · simp [ImapService.connect, hu, hcf] at h
  · intro c f h
    rcases h with h | h <;> simp [ImapService.connectIfNeeded, h]
  · intro c f h1 h2
    simp [ImapService.connectIfNeeded, h1, h2]

theorem connect_idempotent_witness :
    ImapService.connect ⟨true, false⟩ Faults.none = ([], .ok ⟨true, false⟩) :=
  connect_idempotent_spec.1 ⟨true, false⟩ Faults.none rfl

/-- Is this event a mailbox-lock acquisition? -/
def isAcquire : Ev → Bool
  | .lockAcquire _ => true
  | _ => false

/-- Is this event a mailbox-lock release? -/
def isRelease : Ev → Bool
  | .lockRelease _ => true
  | _ => false

def acqCount (t : List Ev) : Nat := (t.filter isAcquire).length

def relCount (t : List Ev) : Nat := (t.filter isRelease).length

/-- The lock discipline of one call: as many releases as acquisitions,
and at most one acquisition (so an acquired lock is released exactly
once, and no release happens without an acquisition). -/
def lockBalanced (t : List Ev) : Prop := relCount t = acqCount t ∧ acqCount t ≤ 1

lemma connectIfNeeded_trace_cases (c : ImapClient) (f : Faults) :
    (ImapService.connectIfNeeded c f).1 = [] ∨
    (ImapService.connectIfNeeded c f).1 = [Ev.connectAttempt] := by
  cases hu : c.usable <;> cases hlo : c.loggedOut <;> cases hcf : f.connectFail <;>
    simp [ImapService.connectIfNeeded, ImapService.connect, hu, hlo, hcf]

lemma lockBalanced_listMessages (s : ImapState) (f : Faults) (mb : String)
    (a b : Option Nat) :
    lockBalanced (ImapService.listMessages s f mb a b).trace := by
  have hct := connectIfNeeded_trace_cases s.client f
  rcases hc : ImapService.connectIfNeeded s.client f with ⟨ct, r⟩
  rw [hc] at hct
  simp only at hct
  unfold ImapService.listMessages
  rw [hc]
  cases r with
  | error e =>
    rcases hct with h | h <;> subst h <;>
      simp [lockBalanced, acqCount, relCount, isAcquire, isRelease]
  | ok c =>
    rcases hct with h | h <;> subst h <;>
      by_cases h1 : f.lockFail = true <;>
      by_cases h2 : truthyN a = true <;>
      by_cases h3 : truthyN b = true <;>
      by_cases h4 : f.statusFail = true <;>
      by_cases h5 : f.fetchFail = true <;>
      by_cases h6 : 0 < (getMb s.server mb).length <;>
      simp [h1, h2, h3, h4, h5, h6, lockBalanced, acqCount, relCount, isAcquire, isRelease]

lemma lockBalanced_fetchMessage (s : ImapState) (f : Faults) (mb uid : String) :
    lockBalanced (ImapService.fetchMessage s f mb uid).trace := by
  have hct := connectIfNeeded_trace_cases s.client f
  rcases hc : ImapService.connectIfNeeded s.client f with ⟨ct, r⟩
  rw [hc] at hct
  simp only at hct
  unfold ImapService.fetchMessage
  rw [hc]
  cases r with
  | error e =>
    rcases hct with h | h <;> subst h <;>
      simp [lockBalanced, acqCount, relCount, isAcquire, isRelease]
  | ok c =>
    rcases hct with h | h <;> subst h <;>
      by_cases h1 : f.lockFail = true <;>
      by_cases h2 : f.fetchFail = true <;>
      simp [h1, h2, lockBalanced, acqCount, relCount, isAcquire, isRelease]

lemma lockBalanced_downloadAttachment (s : ImapState) (f : Faults) (mb uid part : String) :
    lockBalanced (ImapService.downloadAttachment s f mb uid part).trace := by
  have hct := connectIfNeeded_trace_cases s.client f
  rcases hc : ImapService.connectIfNeeded s.client f with ⟨ct, r⟩
  rw [hc] at hct
  simp only at hct
  unfold ImapService.downloadAttachment
  rw [hc]
  cases r with
  | error e =>
    rcases hct with h | h <;> subst h <;>
      simp [lockBalanced, acqCount, relCount, isAcquire, isRelease]
  | ok c =>
    rcases hct with h | h <;> subst h <;>
      by_cases h1 : f.lockFail = true <;>
      by_cases h2 : f.downloadFail = true <;>
      simp [h1, h2, lockBalanced, acqCount, relCount, isAcquire, isRelease]

lemma lockBalanced_setFlags (s : ImapState) (f : Faults) (mb uid : String)
    (fl : List String) :
    lockBalanced (ImapService.setFlags s f mb uid fl).trace := by
  have hct := connectIfNeeded_trace_cases s.client f
  rcases hc : ImapService.connectIfNeeded s.client f with ⟨ct, r⟩
  rw [hc] at hct
  simp only at hct
  unfold ImapService.setFlags
  rw [hc]
  cases r with
  | error e =>
    rcases hct with h | h <;> subst h <;>
      simp [lockBalanced, acqCount, relCount, isAcquire, isRelease]
  | ok c =>
    rcases hct with h | h <;> subst h <;>
      by_cases h1 : f.lockFail = true <;>
      by_cases h2 : f.storeFail = true <;>
      simp [h1, h2, lockBalanced, acqCount, relCount, isAcquire, isRelease]

lemma lockBalanced_unsetFlags (s : ImapState) (f : Faults) (mb uid : String)
    (fl : List String) :
    lockBalanced (ImapService.unsetFlags s f mb uid fl).trace := by
  have hct := connectIfNeeded_trace_cases s.client f
  rcases hc : ImapService.connectIfNeeded s.client f with ⟨ct, r⟩
  rw [hc] at hct
  simp only at hct
  unfold ImapService.unsetFlags
  rw [hc]
  cases r with
  | error e =>
    rcases hct with h | h <;> subst h <;>
      simp [lockBalanced, acqCount, relCount, isAcquire, isRelease]
  | ok c =>
    rcases hct with h | h <;> subst h <;>
      by_cases h1 : f.lockFail = true <;>
      by_cases h2 : f.storeFail = true <;>
      simp [h1, h2, lockBalanced, acqCount, relCount, isAcquire, isRelease]

lemma lockBalanced_moveMessage (s : ImapState) (f : Faults) (mb uid dest : String) :
    lockBalanced (ImapService.moveMessage s f mb uid dest).trace := by
  have hct := connectIfNeeded_trace_cases s.client f
  rcases hc : ImapService.connectIfNeeded s.client f with ⟨ct, r⟩
  rw [hc] at hct
  simp only at hct
  unfold ImapService.moveMessage
  rw [hc]
  cases r with
  | error e =>
    rcases hct with h | h <;> subst h <;>
      simp [lockBalanced, acqCount, relCount, isAcquire, isRelease]
  | ok c =>
    rcases hct with h | h <;> subst h <;>
      by_cases h1 : f.lockFail = true <;>
      by_cases h2 : f.moveFail = true <;>
      simp [h1, h2, lockBalanced, acqCount, relCount, isAcquire, isRelease]

/-- C2: every mailbox-scoped IMAP operation keeps the per-mailbox lock
balanced on every path, for every state, fault injection, and argument:
the trace contains as many releases as acquisitions and at most one
acquisition, so a lock acquired during the call is released exactly once
whether the call returns or throws at any step after acquisition. -/
theorem lock_release_balanced (s : ImapState) (f : Faults) (mb uid part dest : String)
    (a b : Option Nat) (fl : List String) :
    lockBalanced (ImapService.listMessages s f mb a b).trace ∧
    lockBalanced (ImapService.fetchMessage s f mb uid).trace ∧
    lockBalanced (ImapService.downloadAttachment s f mb uid part).trace ∧
    lockBalanced (ImapService.setFlags s f mb uid fl).trace ∧
    lockBalanced (ImapService.unsetFlags s f mb uid fl).trace ∧
    lockBalanced (ImapService.moveMessage s f mb uid dest).trace :=
  ⟨lockBalanced_listMessages s f mb a b,
   lockBalanced_fetchMessage s f mb uid,
   lockBalanced_downloadAttachment s f mb uid part,
   lockBalanced_setFlags s f mb uid fl,
   lockBalanced_unsetFlags s f mb uid fl,
   lockBalanced_moveMessage s f mb uid dest⟩

/-! Helper lemmas about the server-state operations. -/

lemma find?_map_upd (lst : List (String × List ImapMessage)) (mb : String)
    (l : List ImapMessage) (hany : lst.any (fun p => p.1 == mb) = true) :
    (lst.map (fun p => if p.1 == mb then (mb, l) else p)).find? (fun p => p.1 == mb)
      = some (mb, l) := by
  induction lst with
  | nil => simp at hany
  | cons q t ih =>
    by_cases hq : (q.1 == mb) = true
    · have hq' := hq
      rw [beq_iff_eq] at hq'
      simp [List.find?_cons, hq, hq']
    · simp only [List.any_cons, hq, Bool.false_or] at hany
      rw [Bool.not_eq_true] at hq
      simp only [List.map_cons, List.find?_cons, hq, Bool.false_eq_true, if_false]
      exact ih hany

lemma find?_map_upd_other (lst : List (String × List ImapMessage)) (mb mb2 : String)
    (l : List ImapMessage) (h : mb2 ≠ mb) :
    (lst.map (fun p => if p.1 == mb then (mb, l) else p)).find? (fun p => p.1 == mb2)
      = lst.find? (fun p => p.1 == mb2) := by
  induction lst with
  | nil => simp
  | cons q t ih =>
    by_cases hq : (q.1 == mb) = true
    · have hq2 : (q.1 == mb2) = false := by
        rw [beq_iff_eq] at hq
        rw [beq_eq_false_iff_ne, hq]
        exact fun he => h he.symm
      have hml : (((mb, l) : String × List ImapMessage).1 == mb2) = false := by
        rw [beq_eq_false_iff_ne]
        exact fun he => h he.symm
      simp only [List.map_cons, if_pos hq, List.find?_cons, hml, hq2]
      exact ih
    · simp only [List.map_cons, if_neg hq, List.find?_cons]
      by_cases hq2 : (q.1 == mb2) = true
      · simp only [hq2]
      · simp only [Bool.not_eq_true] at hq2
        simp only [hq2]
        exact ih

lemma getMb_setMb_same (srv : ImapServer) (mb : String) (l : List ImapMessage) :
    getMb (setMb srv mb l) mb = l := by
  unfold setMb
  by_cases hany : srv.mailboxes.any (fun p => p.1 == mb) = true
  · rw [if_pos hany]
    unfold getMb
    simp only
    rw [find?_map_upd srv.mailboxes mb l hany]
  · rw [if_neg hany]
    unfold getMb
    simp only
    rw [List.find?_append]
    have hnone : srv.mailboxes.find? (fun p => p.1 == mb) = Option.none := by
      rw [List.find?_eq_none]
      intro x hx hpx
      rw [List.any_eq_true] at hany
      exact hany ⟨x, hx, hpx⟩
    rw [hnone]
    simp [List.find?_cons]

lemma getMb_setMb_other (srv : ImapServer) (mb mb2 : String) (l : List ImapMessage)
    (h : mb2 ≠ mb) :
    getMb (setMb srv mb l) mb2 = getMb srv mb2 := by
  unfold setMb
  by_cases hany : srv.mailboxes.any (fun p => p.1 == mb) = true
  · rw [if_pos hany]
    unfold getMb
    simp only
    rw [find?_map_upd_other srv.mailboxes mb mb2 l h]
  · rw [if_neg hany]
    unfold getMb
    simp only
    rw [List.find?_append]
    have hsingle : List.find? (fun p => p.1 == mb2) [(mb, l)] = Option.none := by
      rw [List.find?_eq_none]
      intro x hx hpx
      rw [List.mem_singleton] at hx
      subst hx
      rw [beq_iff_eq] at hpx
      exact h hpx.symm
    rw [hsingle]
    cases srv.mailboxes.find? (fun p => p.1 == mb2) <;> rfl

lemma findUid_filter_out (l : List ImapMessage) (id : String) :
    findUid (l.filter (fun m2 => !(toString m2.uid == id))) id = Option.none := by
  unfold findUid
  rw [List.find?_eq_none]
  intro x hx hpx
  rw [List.mem_filter] at hx
  rw [hpx] at hx
  simp at hx

lemma findUid_map_flagUpd (l : List ImapMessage) (id : String) (msg : ImapMessage)
    (F : ImapMessage → List String) (hmsg : findUid l id = some msg) :
    findUid (l.map (fun m =>
        if toString m.uid == id then { m with flags := F m } else m)) id
      = some { msg with flags := F msg } := by
  unfold findUid at hmsg ⊢
  induction l with
  | nil => simp at hmsg
  | cons q t ih =>
    by_cases hq : (toString q.uid == id) = true
    · simp only [List.find?_cons, hq] at hmsg
      injection hmsg with h2
      subst h2
      have hq' : toString q.uid = id := by rwa [beq_iff_eq] at hq
      simp [List.find?_cons, hq, hq']
    · simp only [Bool.not_eq_true] at hq
      simp only [List.find?_cons, hq] at hmsg
      simp only [List.map_cons, hq, Bool.false_eq_true, if_false, List.find?_cons]
      exact ih hmsg

lemma contains_flag_union (fl add : List String) (x : String) (hx : x ∈ add) :
    (fl ++ add.filter (fun y => !(fl.contains y))).contains x = true := by
  refine List.elem_iff.mpr ?_
  rw [List.mem_append]
  by_cases hf : fl.contains x = true
  · exact Or.inl (List.elem_iff.mp hf)
  · right
    rw [List.mem_filter]
    have hf2 : fl.contains x = false := by
      cases hcx : fl.contains x
      · rfl
      · exact absurd hcx hf
    refine ⟨hx, ?_⟩
    rw [hf2]
    rfl

/-! Fault-free normal forms of the service operations on a connected
client (the connected hypotheses make connectIfNeeded a no-op). -/

lemma cin_connected (c : ImapClient) (f : Faults)
    (hu : c.usable = true) (hlo : c.loggedOut = false) :
    ImapService.connectIfNeeded c f = ([], .ok c) := by
  simp [ImapService.connectIfNeeded, hu, hlo]

lemma setFlags_norm (s : ImapState) (f : Faults) (mb uid : String) (fl : List String)
    (hu : s.client.usable = true) (hlo : s.client.loggedOut = false)
    (hl : f.lockFail = false) (hst : f.storeFail = false) :
    ImapService.setFlags s f mb uid fl =
      ⟨[Ev.lockAcquire mb, Ev.flagsAdd mb uid fl, Ev.lockRelease mb], .ok (),
        ⟨s.client, addFlagsSrv s.server mb uid fl⟩⟩ := by
  unfold ImapService.setFlags
  rw [cin_connected s.client f hu hlo]
  simp [hl, hst]

lemma unsetFlags_norm (s : ImapState) (f : Faults) (mb uid : String) (fl : List String)
    (hu : s.client.usable = true) (hlo : s.client.loggedOut = false)
    (hl : f.lockFail = false) (hst : f.storeFail = false) :
    ImapService.unsetFlags s f mb uid fl =
      ⟨[Ev.lockAcquire mb, Ev.flagsRemove mb uid fl, Ev.lockRelease mb], .ok (),
        ⟨s.client, removeFlagsSrv s.server mb uid fl⟩⟩ := by
  unfold ImapService.unsetFlags
  rw [cin_connected s.client f hu hlo]
  simp [hl, hst]

lemma moveMessage_norm_ok (s : ImapState) (f : Faults) (mb uid dest : String)
    (hu : s.client.usable = true) (hlo : s.client.loggedOut = false)
    (hl : f.lockFail = false) (hmv : f.moveFail = false) :
    ImapService.moveMessage s f mb uid dest =
      ⟨[Ev.lockAcquire mb, Ev.imapMove mb uid dest, Ev.lockRelease mb], .ok (),
        ⟨s.client, applyMove s.server mb uid dest⟩⟩ := by
  unfold ImapService.moveMessage
  rw [cin_connected s.client f hu hlo]
  simp [hl, hmv]

lemma moveMessage_norm_fail (s : ImapState) (f : Faults) (mb uid dest : String)
    (hu : s.client.usable = true) (hlo : s.client.loggedOut = false)
    (hl : f.lockFail = false) (hmv : f.moveFail = true) :
    ImapService.moveMessage s f mb uid dest =
      ⟨[Ev.lockAcquire mb, Ev.imapMove mb uid dest, Ev.lockRelease mb],
        .error (.protocol "messageMove"), s⟩ := by
  unfold ImapService.moveMessage
  rw [cin_connected s.client f hu hlo]
  simp [hl, hmv]

lemma fetchMessage_norm (s : ImapState) (f : Faults) (mb uid : String)
    (hu : s.client.usable = true) (hlo : s.client.loggedOut = false)
    (hl : f.lockFail = false) (hff : f.fetchFail = false) :
    ImapService.fetchMessage s f mb uid =
      ⟨[Ev.lockAcquire mb, Ev.imapFetchOne mb uid, Ev.lockRelease mb],
        .ok (findUid (getMb s.server mb) uid), s⟩ := by
  unfold ImapService.fetchMessage
  rw [cin_connected s.client f hu hlo]
  simp [hl, hff]



/-- C1: delete first issues the move INBOX to Trash; when the move does
not throw the call succeeds, the message leaves INBOX, lands in Trash
and no flag mutation happens; when (and only when) the move throws,
the manager sets the \Deleted flag on the source message and still
rejects, with a StandardizedError whose cause is the original move
error.  (Hypotheses: connected client, and no injected fault on the
lock or flag-store commands, so the fallback itself succeeds.) -/
theorem delete_move_with_flag_fallback (w : World) (f : Faults) (id : String)
    (msg : ImapMessage)
    (hu : w.imap.client.usable = true) (hlo : w.imap.client.loggedOut = false)
    (hl : f.lockFail = false) (hst : f.storeFail = false)
    (hmsg : findUid (getMb w.imap.server "INBOX") id = some msg) :
    (f.moveFail = false →
      (GenericMailManager.delete w f id).result = .ok () ∧
      Ev.imapMove "INBOX" id "Trash" ∈ (GenericMailManager.delete w f id).trace ∧
      (∀ mb2 uid2 fl2, Ev.flagsAdd mb2 uid2 fl2 ∉ (GenericMailManager.delete w f id).trace) ∧
      findUid (getMb (GenericMailManager.delete w f id).world.imap.server "INBOX") id
        = Option.none ∧
      msg ∈ getMb (GenericMailManager.delete w f id).world.imap.server "Trash") ∧
    (f.moveFail = true →
      (GenericMailManager.delete w f id).result =
        .error (.standardized "Failed to move message to trash and fallback also problematic"
          500 (some (.protocol "messageMove"))) ∧
      Ev.imapMove "INBOX" id "Trash" ∈ (GenericMailManager.delete w f id).trace ∧
      ∃ msg2,
        findUid (getMb (GenericMailManager.delete w f id).world.imap.server "INBOX") id
          = some msg2 ∧
        msg2.flags.contains "\\Deleted" = true) := by
  constructor
  · intro hmv
    have hrw := moveMessage_norm_ok w.imap f "INBOX" id "Trash" hu hlo hl hmv
    unfold GenericMailManager.delete
    rw [hrw]
    simp only
    refine ⟨by simp, by simp, by simp, ?_, ?_⟩
    · show findUid (getMb (applyMove w.imap.server "INBOX" id "Trash") "INBOX") id
        = Option.none
      unfold applyMove
      rw [hmsg]
      simp only
      rw [getMb_setMb_other _ "Trash" "INBOX" _ (by decide), getMb_setMb_same]
      exact findUid_filter_out _ id
    · show msg ∈ getMb (applyMove w.imap.server "INBOX" id "Trash") "Trash"
      unfold applyMove
      rw [hmsg]
      simp only
      rw [getMb_setMb_same]
      exact List.mem_append_right _ (List.mem_singleton.mpr rfl)
  · intro hmv
    have hrw := moveMessage_norm_fail w.imap f "INBOX" id "Trash" hu hlo hl hmv
    have hrw2 := setFlags_norm w.imap f "INBOX" id ["\\Deleted"] hu hlo hl hst
    unfold GenericMailManager.delete
    rw [hrw]
    simp only
    rw [hrw2]
    simp only
    refine ⟨by simp, by simp, ?_⟩
    show ∃ msg2,
      findUid (getMb (addFlagsSrv w.imap.server "INBOX" id ["\\Deleted"]) "INBOX") id
        = some msg2 ∧ msg2.flags.contains "\\Deleted" = true
    unfold addFlagsSrv
    rw [getMb_setMb_same]
    refine ⟨_, findUid_map_flagUpd _ id msg _ hmsg, ?_⟩
    exact contains_flag_union msg.flags ["\\Deleted"] "\\Deleted" (by simp)

def c1msg : ImapMessage := ⟨3, [], "s", [], [], [], Option.none, Option.none, []⟩

def c1world : World := ⟨⟨⟨true, false⟩, ⟨[("INBOX", [c1msg])]⟩⟩, Option.none⟩

def c1faults : Faults := { Faults.none with moveFail := true }

theorem delete_move_with_flag_fallback_witness :
    (c1faults.moveFail = false →
      (GenericMailManager.delete c1world c1faults "3").result = .ok () ∧
      Ev.imapMove "INBOX" "3" "Trash" ∈ (GenericMailManager.delete c1world c1faults "3").trace ∧
      (∀ mb2 uid2 fl2,
        Ev.flagsAdd mb2 uid2 fl2 ∉ (GenericMailManager.delete c1world c1faults "3").trace) ∧
      findUid (getMb (GenericMailManager.delete c1world c1faults "3").world.imap.server "INBOX")
        "3" = Option.none ∧
      c1msg ∈ getMb (GenericMailManager.delete c1world c1faults "3").world.imap.server "Trash") ∧
    (c1faults.moveFail = true →
      (GenericMailManager.delete c1world c1faults "3").result =
        .error (.standardized "Failed to move message to trash and fallback also problematic"
          500 (some (.protocol "messageMove"))) ∧
      Ev.imapMove "INBOX" "3" "Trash" ∈ (GenericMailManager.delete c1world c1faults "3").trace ∧
      ∃ msg2,
        findUid (getMb (GenericMailManager.delete c1world c1faults "3").world.imap.server "INBOX")
          "3" = some msg2 ∧
        msg2.flags.contains "\\Deleted" = true) :=
  delete_move_with_flag_fallback c1world c1faults "3" c1msg rfl rfl rfl rfl (by decide)

def c10msg : ImapMessage := ⟨5, ["\\Draft"], "subj", [], [], [], some "", some "<p>hi</p>", []⟩

def c10world : World := ⟨⟨⟨true, false⟩, ⟨[("Drafts", [c10msg])]⟩⟩, Option.none⟩

/-- C10 counterexample: a draft whose plain-text body is present but
empty.  The claim says content is taken from the plain-text body when
present; the code (JS truthiness of the empty string) takes the HTML
body instead. -/
theorem getDraft_empty_text_counterexample :
    c10msg.textBody = some "" ∧
    ∃ d, (GenericMailManager.getDraft c10world Faults.none "5").result = .ok d ∧
      d.content = some "<p>hi</p>" ∧ d.content ≠ c10msg.textBody := by
  refine ⟨rfl, ⟨"5", [], [], [], "subj", some "<p>hi</p>"⟩, rfl, rfl, by decide⟩

/-- C10 (amended): getDraft raises the 404 StandardizedError both when
no message with the id exists in Drafts and when the message exists but
lacks the \Draft flag; for a \Draft-flagged message it returns a
ParsedDraft whose content is the plain-text body when that body is
present and non-empty, and otherwise the HTML body (JS || semantics:
an empty plain-text body falls through to HTML). -/
theorem getDraft_spec (w : World) (f : Faults) (id : String)
    (hu : w.imap.client.usable = true) (hlo : w.imap.client.loggedOut = false)
    (hl : f.lockFail = false) (hff : f.fetchFail = false) :
    (findUid (getMb w.imap.server "Drafts") id = Option.none →
      (GenericMailManager.getDraft w f id).result =
        .error (.standardized "Draft not found or not a draft" 404 Option.none)) ∧
    (∀ m, findUid (getMb w.imap.server "Drafts") id = some m →
      (m.flags.contains "\\Draft" = false →
        (GenericMailManager.getDraft w f id).result =
          .error (.standardized "Draft not found or not a draft" 404 Option.none)) ∧
      (m.flags.contains "\\Draft" = true →
        ∃ d, (GenericMailManager.getDraft w f id).result = .ok d ∧
          d.id = toString m.uid ∧
          (∀ s, m.textBody = some s → s ≠ "" → d.content = some s) ∧
          ((m.textBody = Option.none ∨ m.textBody = some "") →
            d.content = m.htmlBody))) := by
  have hrw := fetchMessage_norm w.imap f "Drafts" id hu hlo hl hff
  unfold GenericMailManager.getDraft
  rw [hrw]
  constructor
  · intro hnone
    rw [hnone]
  · intro m hm
    rw [hm]
    constructor
    · intro hflag
      simp only [hflag, Bool.false_eq_true, if_false]
    · intro hflag
      simp only [hflag, if_true]
      refine ⟨_, rfl, rfl, ?_, ?_⟩
      · intro s hs hs'
        show jsOrStr m.textBody m.htmlBody = some s
        rw [hs]
        unfold jsOrStr
        simp [hs']
      · intro h
        show jsOrStr m.textBody m.htmlBody = m.htmlBody
        rcases h with h | h <;> rw [h] <;> simp [jsOrStr]

theorem getDraft_spec_witness :
    (findUid (getMb c10world.imap.server "Drafts") "5" = Option.none →
      (GenericMailManager.getDraft c10world Faults.none "5").result =
        .error (.standardized "Draft not found or not a draft" 404 Option.none)) ∧
    (∀ m, findUid (getMb c10world.imap.server "Drafts") "5" = some m →
      (m.flags.contains "\\Draft" = false →
        (GenericMailManager.getDraft c10world Faults.none "5").result =
          .error (.standardized "Draft not found or not a draft" 404 Option.none)) ∧
      (m.flags.contains "\\Draft" = true →
        ∃ d, (GenericMailManager.getDraft c10world Faults.none "5").result = .ok d ∧
          d.id = toString m.uid ∧
          (∀ s, m.textBody = some s → s ≠ "" → d.content = some s) ∧
          ((m.textBody = Option.none ∨ m.textBody = some "") →
            d.content = m.htmlBody))) :=
  getDraft_spec c10world Faults.none "5" rfl rfl rfl rfl

def c7world : World := ⟨⟨⟨true, false⟩, ⟨[]⟩⟩, some ["m1", "m2", "m3"]⟩

/-- C7 counterexample: a POP3-only manager over 3 messages.  list()
does return the three sequence-derived ids, but get returns a
ParsedMessage whose read field is false (the source sets read: false in
parsePop3Message), not true as the claim states. -/
theorem pop3_get_read_counterexample :
    (GenericMailManager.list c7world Faults.none "INBOX" Option.none Option.none).result =
      .ok ⟨["1", "2", "3"], Option.none⟩ ∧
    ∃ r, (GenericMailManager.get c7world Faults.none "2").result = .ok r ∧
      r.latest.read = false ∧ ¬ r.latest.read = true ∧ r.latest.labels = [] := by
  refine ⟨rfl, ⟨[GenericMailManager.parsePop3Message "m2" "2"],
    GenericMailManager.parsePop3Message "m2" "2", true, 0, []⟩, rfl, rfl, ?_, rfl⟩
  intro h
  exact absurd (rfl.trans h) (by decide)

/-- C7 (amended): a POP3-configured manager over a 3-message mailbox:
list() returns exactly the three sequence-derived thread ids "1","2","3"
with no page token, and get("2") returns the parsed second message with
read = false (the POP3 parser marks nothing as read; the accompanying
thread record carries hasUnread = true) and an empty labels list. -/
theorem pop3_scenario_spec (w : World) (f : Faults) (a b c : String) (folder : String)
    (hw : w.pop3 = some [a, b, c])
    (hlf : f.pop3ListFail = false) (hrf : f.pop3RetrFail = false) (hb : ¬ b = "") :
    (GenericMailManager.list w f folder Option.none Option.none).result =
      .ok ⟨["1", "2", "3"], Option.none⟩ ∧
    ∃ r, (GenericMailManager.get w f "2").result = .ok r ∧
      r.latest.id = "2" ∧ r.latest.read = false ∧ r.latest.labels = [] ∧
      r.messages = [r.latest] ∧ r.labels = [] ∧ r.hasUnread = true := by
  constructor
  · unfold GenericMailManager.list
    rw [hw]
    simp only [Pop3Service.listMessages, hlf, Bool.false_eq_true, if_false]
    rw [show ([a, b, c] : List String).length = 3 from rfl]
    congr 1
  · unfold GenericMailManager.get
    rw [hw]
    rw [show jsNumber "2" = some (Nat.succ 1) from rfl]
    simp only [Pop3Service.fetchMessage, hrf, Bool.false_eq_true, if_false]
    simp only [List.get?]
    rw [if_neg hb]
    exact ⟨_, rfl, rfl, rfl, rfl, rfl, rfl, rfl⟩

theorem pop3_scenario_spec_witness :
    (GenericMailManager.list c7world Faults.none "INBOX" Option.none Option.none).result =
      .ok ⟨["1", "2", "3"], Option.none⟩ ∧
    ∃ r, (GenericMailManager.get c7world Faults.none "2").result = .ok r ∧
      r.latest.id = "2" ∧ r.latest.read = false ∧ r.latest.labels = [] ∧
      r.messages = [r.latest] ∧ r.labels = [] ∧ r.hasUnread = true :=
  pop3_scenario_spec c7world Faults.none "m1" "m2" "m3" "INBOX" rfl rfl rfl (by decide)

/-- POP3-protocol events. -/
def evIsPop3 : Ev → Bool
  | .pop3List => true
  | .pop3Retr _ => true
  | .pop3Quit => true
  | _ => false

/-- IMAP-side events (connection, lock and IMAP commands); POP3 and
SMTP events are excluded. -/
def evIsImap : Ev → Bool
  | .pop3List => false
  | .pop3Retr _ => false
  | .pop3Quit => false
  | .smtpSend => false
  | _ => true

lemma imapEvs_cin (c : ImapClient) (f : Faults) :
    ∀ e ∈ (ImapService.connectIfNeeded c f).1, evIsImap e = true := by
  rcases connectIfNeeded_trace_cases c f with h | h <;> rw [h] <;> simp [evIsImap]

lemma imapEvs_setFlags (s : ImapState) (f : Faults) (mb uid : String) (fl : List String) :
    ∀ e ∈ (ImapService.setFlags s f mb uid fl).trace, evIsImap e = true := by
  have hct := imapEvs_cin s.client f
  rcases hc : ImapService.connectIfNeeded s.client f with ⟨ct, r⟩
  rw [hc] at hct
  unfold ImapService.setFlags
  rw [hc]
  cases r with
  | error e => exact hct
  | ok c =>
    by_cases h1 : f.lockFail = true
    · simp only [h1, if_true]
      exact hct
    · by_cases h2 : f.storeFail = true <;>
        simp only [h1, h2, Bool.false_eq_true, if_false, if_true] <;>
        · intro e he
          simp only [List.mem_append, List.mem_cons, List.not_mem_nil, or_false] at he
          rcases he with he | rfl | rfl | rfl
          · exact hct e he
          all_goals rfl

lemma imapEvs_unsetFlags (s : ImapState) (f : Faults) (mb uid : String) (fl : List String) :
    ∀ e ∈ (ImapService.unsetFlags s f mb uid fl).trace, evIsImap e = true := by
  have hct := imapEvs_cin s.client f
  rcases hc : ImapService.connectIfNeeded s.client f with ⟨ct, r⟩
  rw [hc] at hct
  unfold ImapService.unsetFlags
  rw [hc]
  cases r with
  | error e => exact hct
  | ok c =>
    by_cases h1 : f.lockFail = true
    · simp only [h1, if_true]
      exact hct
    · by_cases h2 : f.storeFail = true <;>
        simp only [h1, h2, Bool.false_eq_true, if_false, if_true] <;>
        · intro e he
          simp only [List.mem_append, List.mem_cons, List.not_mem_nil, or_false] at he
          rcases he with he | rfl | rfl | rfl
          · exact hct e he
          all_goals rfl

lemma imapEvs_moveMessage (s : ImapState) (f : Faults) (mb uid dest : String) :
    ∀ e ∈ (ImapService.moveMessage s f mb uid dest).trace, evIsImap e = true := by
  have hct := imapEvs_cin s.client f
  rcases hc : ImapService.connectIfNeeded s.client f with ⟨ct, r⟩
  rw [hc] at hct
  unfold ImapService.moveMessage
  rw [hc]
  cases r with
  | error e => exact hct
  | ok c =>
    by_cases h1 : f.lockFail = true
    · simp only [h1, if_true]
      exact hct
    · by_cases h2 : f.moveFail = true <;>
        simp only [h1, h2, Bool.false_eq_true, if_false, if_true] <;>
        · intro e he
          simp only [List.mem_append, List.mem_cons, List.not_mem_nil, or_false] at he
          rcases he with he | rfl | rfl | rfl
          · exact hct e he
          all_goals rfl

lemma imapEvs_fetchMessage (s : ImapState) (f : Faults) (mb uid : String) :
    ∀ e ∈ (ImapService.fetchMessage s f mb uid).trace, evIsImap e = true := by
  have hct := imapEvs_cin s.client f
  rcases hc : ImapService.connectIfNeeded s.client f with ⟨ct, r⟩
  rw [hc] at hct
  unfold ImapService.fetchMessage
  rw [hc]
  cases r with
  | error e => exact hct
  | ok c =>
    by_cases h1 : f.lockFail = true
    · simp only [h1, if_true]
      exact hct
    · by_cases h2 : f.fetchFail = true <;>
        simp only [h1, h2, Bool.false_eq_true, if_false, if_true] <;>
        · intro e he
          simp only [List.mem_append, List.mem_cons, List.not_mem_nil, or_false] at he
          rcases he with he | rfl | rfl | rfl
          · exact hct e he
          all_goals rfl

lemma imapEvs_listMessages (s : ImapState) (f : Faults) (mb : String) (a b : Option Nat) :
    ∀ e ∈ (ImapService.listMessages s f mb a b).trace, evIsImap e = true := by
  have hct := imapEvs_cin s.client f
  rcases hc : ImapService.connectIfNeeded s.client f with ⟨ct, r⟩
  rw [hc] at hct
  unfold ImapService.listMessages
  rw [hc]
  cases r with
  | error e => exact hct
  | ok c =>
    by_cases h1 : f.lockFail = true
    · simp only [h1, if_true]
      exact hct
    · by_cases h2 : truthyN a = true <;>
      by_cases h3 : truthyN b = true <;>
      by_cases h4 : f.statusFail = true <;>
      by_cases h5 : f.fetchFail = true <;>
      by_cases h6 : 0 < (getMb s.server mb).length <;>
        simp only [h1, h2, h3, h4, h5, h6, Bool.false_eq_true, Bool.and_self,
          Bool.true_and, Bool.false_and, Bool.and_false, Bool.and_true,
          if_false, if_true, decide_True, decide_False] <;>
        · intro e he
          rw [List.mem_append] at he
          rcases he with he | he
          · exact hct e he
          · fin_cases he <;> rfl

lemma pop3_false_of_imap (e : Ev) : evIsImap e = true → evIsPop3 e = false := by
  cases e <;> simp [evIsImap, evIsPop3]

lemma imapEvs_markAsReadGo (f : Faults) (ids : List String) (s : ImapState) :
    ∀ e ∈ (GenericMailManager.markAsReadGo f ids s).trace, evIsImap e = true := by
  induction ids generalizing s with
  | nil => simp [GenericMailManager.markAsReadGo]
  | cons id rest ih =>
    have hsf := imapEvs_setFlags s f "INBOX" id ["\\Seen"]
    unfold GenericMailManager.markAsReadGo
    rcases hr : ImapService.setFlags s f "INBOX" id ["\\Seen"] with ⟨t, r, s2⟩
    rw [hr] at hsf
    cases r with
    | error e2 => exact hsf
    | ok u =>
      intro e he
      rw [List.mem_append] at he
      rcases he with he | he
      · exact hsf e he
      · exact ih s2 e he

lemma imapEvs_markAsUnreadGo (f : Faults) (ids : List String) (s : ImapState) :
    ∀ e ∈ (GenericMailManager.markAsUnreadGo f ids s).trace, evIsImap e = true := by
  induction ids generalizing s with
  | nil => simp [GenericMailManager.markAsUnreadGo]
  | cons id rest ih =>
    have hsf := imapEvs_unsetFlags s f "INBOX" id ["\\Seen"]
    unfold GenericMailManager.markAsUnreadGo
    rcases hr : ImapService.unsetFlags s f "INBOX" id ["\\Seen"] with ⟨t, r, s2⟩
    rw [hr] at hsf
    cases r with
    | error e2 => exact hsf
    | ok u =>
      intro e he
      rw [List.mem_append] at he
      rcases he with he | he
      · exact hsf e he
      · exact ih s2 e he

lemma imapEvs_seqRes (r : SRes Unit) (k : ImapState → SRes Unit)
    (hr : ∀ e ∈ r.trace, evIsImap e = true)
    (hk : ∀ s2, ∀ e ∈ (k s2).trace, evIsImap e = true) :
    ∀ e ∈ (GenericMailManager.seqRes r k).trace, evIsImap e = true := by
  unfold GenericMailManager.seqRes
  rcases r with ⟨t, res, s2⟩
  cases res with
  | error e2 => exact hr
  | ok u =>
    intro e he
    rw [List.mem_append] at he
    rcases he with he | he
    · exact hr e he
    · exact hk s2 e he

lemma imapEvs_modifyLabelsOne (f : Faults) (add rem : List String) (id : String)
    (s : ImapState) :
    ∀ e ∈ (GenericMailManager.modifyLabelsOne f add rem id s).trace, evIsImap e = true := by
  unfold GenericMailManager.modifyLabelsOne
  refine imapEvs_seqRes _ _ ?_ (fun s1 => imapEvs_seqRes _ _ ?_ (fun s2 =>
    imapEvs_seqRes _ _ ?_ (fun s3 => imapEvs_seqRes _ _ ?_ (fun s4 => ?_))))
  · split
    · exact imapEvs_setFlags _ _ _ _ _
    · simp [GenericMailManager.skipRes]
  · split
    · exact imapEvs_setFlags _ _ _ _ _
    · simp [GenericMailManager.skipRes]
  · split
    · exact imapEvs_unsetFlags _ _ _ _ _
    · simp [GenericMailManager.skipRes]
  · split
    · exact imapEvs_unsetFlags _ _ _ _ _
    · simp [GenericMailManager.skipRes]
  · split
    · exact imapEvs_moveMessage _ _ _ _ _
    · split
      · exact imapEvs_moveMessage _ _ _ _ _
      · simp [GenericMailManager.skipRes]

lemma imapEvs_modifyLabelsGo (f : Faults) (add rem : List String) (ids : List String)
    (s : ImapState) :
    ∀ e ∈ (GenericMailManager.modifyLabelsGo f add rem ids s).trace, evIsImap e = true := by
  induction ids generalizing s with
  | nil => simp [GenericMailManager.modifyLabelsGo]
  | cons id rest ih =>
    have hone := imapEvs_modifyLabelsOne f add rem id s
    unfold GenericMailManager.modifyLabelsGo
    rcases hr : GenericMailManager.modifyLabelsOne f add rem id s with ⟨t, r, s2⟩
    rw [hr] at hone
    cases r with
    | error e2 => exact hone
    | ok u =>
      intro e he
      rw [List.mem_append] at he
      rcases he with he | he
      · exact hone e he
      · exact ih s2 e he

/-- C5 (amended): with POP3 configured, get is served by one POP3 RETR
of the numeric id and list by one POP3 LIST; without POP3 both are
served by IMAP only.  markAsRead, markAsUnread, delete, modifyLabels
and getDraft issue IMAP-side events only, regardless of configuration;
createDraft performs no protocol exchange; sendDraft (SMTP send plus
IMAP flag write) never touches POP3.  listDrafts is NOT在 this list: it
delegates to list and therefore follows the read-path selection. -/
theorem protocol_routing_spec :
    (∀ w f id msgs, w.pop3 = some msgs →
      (GenericMailManager.get w f id).trace = [Ev.pop3Retr (jsNumber id)]) ∧
    (∀ w f folder pt mr msgs, w.pop3 = some msgs →
      (GenericMailManager.list w f folder pt mr).trace = [Ev.pop3List]) ∧
    (∀ w f id, w.pop3 = Option.none →
      ∀ e ∈ (GenericMailManager.get w f id).trace, evIsImap e = true) ∧
    (∀ w f folder pt mr, w.pop3 = Option.none →
      ∀ e ∈ (GenericMailManager.list w f folder pt mr).trace, evIsImap e = true) ∧
    (∀ w f ids, ∀ e ∈ (GenericMailManager.markAsRead w f ids).trace, evIsImap e = true) ∧
    (∀ w f ids, ∀ e ∈ (GenericMailManager.markAsUnread w f ids).trace, evIsImap e = true) ∧
    (∀ w f id, ∀ e ∈ (GenericMailManager.delete w f id).trace, evIsImap e = true) ∧
    (∀ w f ids add rem,
      ∀ e ∈ (GenericMailManager.modifyLabels w f ids add rem).trace, evIsImap e = true) ∧
    (∀ w f id, ∀ e ∈ (GenericMailManager.getDraft w f id).trace, evIsImap e = true) ∧
    (∀ w, (GenericMailManager.createDraft w).trace = []) ∧
    (∀ w f id, ∀ e ∈ (GenericMailManager.sendDraft w f id).trace, evIsPop3 e = false) := by
  refine ⟨?_, ?_, ?_, ?_, ?_, ?_, ?_, ?_, ?_, ?_, ?_⟩
  · intro w f id msgs hw
    unfold GenericMailManager.get
    rw [hw]
    rcases hr : Pop3Service.fetchMessage msgs f (jsNumber id) with ⟨t, r2⟩
    have ht : t = [Ev.pop3Retr (jsNumber id)] := by
      have h1 := congrArg Prod.fst hr
      simp only [Pop3Service.fetchMessage] at h1
      exact h1.symm
    subst ht
    simp only [hr]
    cases r2 with
    | error e2 => rfl
    | ok raw =>
      dsimp only
      split <;> rfl
  · intro w f folder pt mr msgs hw
    unfold GenericMailManager.list
    rw [hw]
    rcases hr : Pop3Service.listMessages msgs f with ⟨t, r2⟩
    have ht : t = [Ev.pop3List] := by
      have h1 := congrArg Prod.fst hr
      simp only [Pop3Service.listMessages] at h1
      rw [← h1]
      split <;> rfl
    subst ht
    simp only [hr]
    cases r2 with
    | error e2 => rfl
    | ok nums => rfl
  · intro w f id hw
    unfold GenericMailManager.get
    rw [hw]
    have hfm := imapEvs_fetchMessage w.imap f "INBOX" id
    rcases hr : ImapService.fetchMessage w.imap f "INBOX" id with ⟨t, r2, s2⟩
    rw [hr] at hfm
    cases r2 with
    | error e2 => exact hfm
    | ok m =>
      cases m with
      | none => exact hfm
      | some m2 => exact hfm
  · intro w f folder pt mr hw
    unfold GenericMailManager.list
    rw [hw]
    have hlm := imapEvs_listMessages w.imap f folder pt mr
    rcases hr : ImapService.listMessages w.imap f folder pt mr with ⟨t, r2, s2⟩
    rw [hr] at hlm
    cases r2 with
    | error e2 => exact hlm
    | ok msgs2 => exact hlm
  · intro w f ids
    exact imapEvs_markAsReadGo f ids w.imap
  · intro w f ids
    exact imapEvs_markAsUnreadGo f ids w.imap
  · intro w f id
    have hmv := imapEvs_moveMessage w.imap f "INBOX" id "Trash"
    unfold GenericMailManager.delete
    rcases hr : ImapService.moveMessage w.imap f "INBOX" id "Trash" with ⟨t, r2, s2⟩
    rw [hr] at hmv
    simp only [hr]
    cases r2 with
    | ok u => exact hmv
    | error e2 =>
      have hsf := imapEvs_setFlags s2 f "INBOX" id ["\\Deleted"]
      rcases hr2 : ImapService.setFlags s2 f "INBOX" id ["\\Deleted"] with ⟨t2, r3, s3⟩
      rw [hr2] at hsf
      simp only [hr2]
      cases r3 with
      | ok u =>
        intro e he
        rw [List.mem_append] at he
        rcases he with he | he
        · exact hmv e he
        · exact hsf e he
      | error e3 =>
        intro e he
        rw [List.mem_append] at he
        rcases he with he | he
        · exact hmv e he
        · exact hsf e he
  · intro w f ids add rem
    exact imapEvs_modifyLabelsGo f add rem ids w.imap
  · intro w f id
    have hfm := imapEvs_fetchMessage w.imap f "Drafts" id
    unfold GenericMailManager.getDraft
    rcases hr : ImapService.fetchMessage w.imap f "Drafts" id with ⟨t, r2, s2⟩
    rw [hr] at hfm
    cases r2 with
    | error e2 => exact hfm
    | ok m =>
      cases m with
      | none => exact hfm
      | some m2 =>
        dsimp only
        split <;> exact hfm
  · intro w
    rfl
  · intro w f id
    unfold GenericMailManager.sendDraft GenericMailManager.create
    by_cases hs : f.smtpFail = true
    · simp only [hs, if_true]
      intro e he
      fin_cases he
      rfl
    · simp only [hs, Bool.false_eq_true, if_false]
      have hsf := imapEvs_setFlags w.imap f "Drafts" id ["\\Deleted"]
      rcases hr : ImapService.setFlags w.imap f "Drafts" id ["\\Deleted"] with ⟨t2, r3, s3⟩
      rw [hr] at hsf
      simp only [hr]
      cases r3 with
      | ok u =>
        intro e he
        simp only [List.singleton_append, List.mem_cons] at he
        rcases he with rfl | he
        · rfl
        · exact pop3_false_of_imap e (hsf e he)
      | error e3 =>
        intro e he
        simp only [List.singleton_append, List.mem_cons] at he
        rcases he with rfl | he
        · rfl
        · exact pop3_false_of_imap e (hsf e he)

/-- C5 counterexample: with POP3 configured, listDrafts (a draft
operation) is served through the POP3 session — its whole trace is the
POP3 LIST command and contains no IMAP event — contradicting the claim
that draft operations are routed to the IMAP service regardless of POP3
configuration. -/
theorem listDrafts_pop3_counterexample :
    (GenericMailManager.listDrafts c7world Faults.none Option.none Option.none).trace
      = [Ev.pop3List] ∧
    evIsPop3 Ev.pop3List = true ∧ evIsImap Ev.pop3List = false :=
  ⟨rfl, rfl, rfl⟩

theorem protocol_routing_spec_witness :
    (GenericMailManager.get c7world Faults.none "9").trace = [Ev.pop3Retr (jsNumber "9")] :=
  protocol_routing_spec.1 c7world Faults.none "9" ["m1", "m2", "m3"] rfl

/-- The protocol events the per-id body of modifyLabels produces, as a
function of the label options (derived in modifyLabelsOne_norm). -/
def oneBlock (addLabels removeLabels : List String) (j : String) : List Ev :=
  (if addLabels.contains "STARRED" then
    [Ev.lockAcquire "INBOX", Ev.flagsAdd "INBOX" j ["\\Starred"], Ev.lockRelease "INBOX"]
   else []) ++
  (if addLabels.contains "IMPORTANT" then
    [Ev.lockAcquire "INBOX", Ev.flagsAdd "INBOX" j ["\\Flagged"], Ev.lockRelease "INBOX"]
   else []) ++
  (if removeLabels.contains "STARRED" then
    [Ev.lockAcquire "INBOX", Ev.flagsRemove "INBOX" j ["\\Starred"], Ev.lockRelease "INBOX"]
   else []) ++
  (if removeLabels.contains "IMPORTANT" then
    [Ev.lockAcquire "INBOX", Ev.flagsRemove "INBOX" j ["\\Flagged"], Ev.lockRelease "INBOX"]
   else []) ++
  (if addLabels.contains "TRASH" then
    [Ev.lockAcquire "INBOX", Ev.imapMove "INBOX" j "Trash", Ev.lockRelease "INBOX"]
   else if removeLabels.contains "INBOX" && !(addLabels.contains "TRASH") then
    [Ev.lockAcquire "INBOX", Ev.imapMove "INBOX" j "Archive", Ev.lockRelease "INBOX"]
   else [])

lemma modifyLabelsOne_norm (f : Faults) (add rem : List String) (j : String)
    (cl : ImapClient) (srv : ImapServer)
    (hu : cl.usable = true) (hlo : cl.loggedOut = false)
    (hl : f.lockFail = false) (hst : f.storeFail = false) (hmv : f.moveFail = false) :
    ∃ srv2, GenericMailManager.modifyLabelsOne f add rem j ⟨cl, srv⟩ =
      ⟨oneBlock add rem j, .ok (), ⟨cl, srv2⟩⟩ := by
  unfold GenericMailManager.modifyLabelsOne oneBlock
  by_cases h1 : add.contains "STARRED" = true <;>
  by_cases h2 : add.contains "IMPORTANT" = true <;>
  by_cases h3 : rem.contains "STARRED" = true <;>
  by_cases h4 : rem.contains "IMPORTANT" = true <;>
  by_cases h5 : add.contains "TRASH" = true <;>
  by_cases h6 : rem.contains "INBOX" = true <;>
    (simp only [h1, h2, h3, h4, h5, h6, if_true, if_false, Bool.false_eq_true,
       Bool.true_and, Bool.false_and, Bool.and_true, Bool.and_false, Bool.not_true,
       Bool.not_false, setFlags_norm, unsetFlags_norm, moveMessage_norm_ok,
       hu, hlo, hl, hst, hmv, GenericMailManager.seqRes, GenericMailManager.skipRes,
       List.nil_append, List.append_nil, List.cons_append, List.append_assoc]
     exact ⟨_, rfl⟩)

lemma modifyLabelsGo_norm (f : Faults) (add rem : List String) (ids : List String)
    (cl : ImapClient) (srv : ImapServer)
    (hu : cl.usable = true) (hlo : cl.loggedOut = false)
    (hl : f.lockFail = false) (hst : f.storeFail = false) (hmv : f.moveFail = false) :
    ∃ srv2, GenericMailManager.modifyLabelsGo f add rem ids ⟨cl, srv⟩ =
      ⟨(ids.map (oneBlock add rem)).flatten, .ok (), ⟨cl, srv2⟩⟩ := by
  induction ids generalizing srv with
  | nil => exact ⟨srv, rfl⟩
  | cons j rest ih =>
    obtain ⟨srv1, h1⟩ := modifyLabelsOne_norm f add rem j cl srv hu hlo hl hst hmv
    obtain ⟨srv2, h2⟩ := ih srv1
    refine ⟨srv2, ?_⟩
    unfold GenericMailManager.modifyLabelsGo
    rw [h1]
    simp only
    rw [h2]
    simp

lemma oneBlock_no_addStar (add rem : List String) (j id : String)
    (h1 : add.contains "STARRED" = false) :
    Ev.flagsAdd "INBOX" id ["\\Starred"] ∉ oneBlock add rem j := by
  have hmem : "STARRED" ∉ add := by simpa using h1
  unfold oneBlock
  by_cases h2 : "IMPORTANT" ∈ add <;>
  by_cases h3 : "STARRED" ∈ rem <;>
  by_cases h4 : "IMPORTANT" ∈ rem <;>
  by_cases h5 : "TRASH" ∈ add <;>
  by_cases h6 : "INBOX" ∈ rem <;>
    simp [h2, h3, h4, h5, h6, hmem]

lemma oneBlock_no_addFlagged (add rem : List String) (j id : String)
    (h2 : add.contains "IMPORTANT" = false) :
    Ev.flagsAdd "INBOX" id ["\\Flagged"] ∉ oneBlock add rem j := by
  have hmem : "IMPORTANT" ∉ add := by simpa using h2
  unfold oneBlock
  by_cases h1 : "STARRED" ∈ add <;>
  by_cases h3 : "STARRED" ∈ rem <;>
  by_cases h4 : "IMPORTANT" ∈ rem <;>
  by_cases h5 : "TRASH" ∈ add <;>
  by_cases h6 : "INBOX" ∈ rem <;>
    simp [h1, h3, h4, h5, h6, hmem]

lemma oneBlock_no_remStar (add rem : List String) (j id : String)
    (h3 : rem.contains "STARRED" = false) :
    Ev.flagsRemove "INBOX" id ["\\Starred"] ∉ oneBlock add rem j := by
  have hmem : "STARRED" ∉ rem := by simpa using h3
  unfold oneBlock
  by_cases h1 : "STARRED" ∈ add <;>
  by_cases h2 : "IMPORTANT" ∈ add <;>
  by_cases h4 : "IMPORTANT" ∈ rem <;>
  by_cases h5 : "TRASH" ∈ add <;>
  by_cases h6 : "INBOX" ∈ rem <;>
    simp [h1, h2, h4, h5, h6, hmem]

lemma oneBlock_no_remFlagged (add rem : List String) (j id : String)
    (h4 : rem.contains "IMPORTANT" = false) :
    Ev.flagsRemove "INBOX" id ["\\Flagged"] ∉ oneBlock add rem j := by
  have hmem : "IMPORTANT" ∉ rem := by simpa using h4
  unfold oneBlock
  by_cases h1 : "STARRED" ∈ add <;>
  by_cases h2 : "IMPORTANT" ∈ add <;>
  by_cases h3 : "STARRED" ∈ rem <;>
  by_cases h5 : "TRASH" ∈ add <;>
  by_cases h6 : "INBOX" ∈ rem <;>
    simp [h1, h2, h3, h5, h6, hmem]

lemma oneBlock_no_moveTrash (add rem : List String) (j id : String)
    (h5 : add.contains "TRASH" = false) :
    Ev.imapMove "INBOX" id "Trash" ∉ oneBlock add rem j := by
  unfold oneBlock
  intro hin
  simp only [List.mem_append] at hin
  rcases hin with ((((hin | hin) | hin) | hin) | hin)
  · revert hin
    split <;> simp
  · revert hin
    split <;> simp
  · revert hin
    split <;> simp
  · revert hin
    split <;> simp
  · revert hin
    split
    · rename_i hc1
      rw [h5] at hc1
      simp at hc1
    · split
      · simp
      · simp

lemma oneBlock_no_moveArchive (add rem : List String) (j id : String)
    (h : rem.contains "INBOX" = false ∨ add.contains "TRASH" = true) :
    Ev.imapMove "INBOX" id "Archive" ∉ oneBlock add rem j := by
  unfold oneBlock
  intro hin
  simp only [List.mem_append] at hin
  rcases hin with ((((hin | hin) | hin) | hin) | hin)
  · revert hin
    split <;> simp
  · revert hin
    split <;> simp
  · revert hin
    split <;> simp
  · revert hin
    split <;> simp
  · revert hin
    split
    · simp
    · split
      · rename_i hc2
        rcases h with h6 | h5
        · rw [h6] at hc2
          simp at hc2
        · rw [h5] at hc2
          simp at hc2
      · simp

lemma oneBlock_has_addStar (add rem : List String) (id : String)
    (h1 : "STARRED" ∈ add) :
    Ev.flagsAdd "INBOX" id ["\\Starred"] ∈ oneBlock add rem id := by
  unfold oneBlock
  simp [h1]

lemma oneBlock_has_addFlagged (add rem : List String) (id : String)
    (h2 : "IMPORTANT" ∈ add) :
    Ev.flagsAdd "INBOX" id ["\\Flagged"] ∈ oneBlock add rem id := by
  unfold oneBlock
  simp [h2]

lemma oneBlock_has_remStar (add rem : List String) (id : String)
    (h3 : "STARRED" ∈ rem) :
    Ev.flagsRemove "INBOX" id ["\\Starred"] ∈ oneBlock add rem id := by
  unfold oneBlock
  simp [h3]

lemma oneBlock_has_remFlagged (add rem : List String) (id : String)
    (h4 : "IMPORTANT" ∈ rem) :
    Ev.flagsRemove "INBOX" id ["\\Flagged"] ∈ oneBlock add rem id := by
  unfold oneBlock
  simp [h4]

lemma oneBlock_has_moveTrash (add rem : List String) (id : String)
    (h5 : "TRASH" ∈ add) :
    Ev.imapMove "INBOX" id "Trash" ∈ oneBlock add rem id := by
  unfold oneBlock
  simp [h5]

lemma oneBlock_has_moveArchive (add rem : List String) (id : String)
    (h6 : "INBOX" ∈ rem) (h5 : ¬ "TRASH" ∈ add) :
    Ev.imapMove "INBOX" id "Archive" ∈ oneBlock add rem id := by
  unfold oneBlock
  simp [h5, h6]

/-- C4: for every id in the ids of a modifyLabels call (fault-free,
connected client), adding STARRED stores exactly the flag \Starred (and
nothing else), adding IMPORTANT stores \Flagged, removing them issues
the corresponding flag removals; adding TRASH moves the message to
Trash; removing INBOX without adding TRASH moves it to Archive; and
every protocol event of the call is a lock acquire/release or one of
those six commands for some id of the call — no other label value
causes any mutation. -/
theorem modifyLabels_trace_spec (w : World) (f : Faults) (ids add rem : List String)
    (id : String) (hid : id ∈ ids)
    (hu : w.imap.client.usable = true) (hlo : w.imap.client.loggedOut = false)
    (hl : f.lockFail = false) (hst : f.storeFail = false) (hmv : f.moveFail = false) :
    (GenericMailManager.modifyLabels w f ids add rem).result = .ok () ∧
    (Ev.flagsAdd "INBOX" id ["\\Starred"]
        ∈ (GenericMailManager.modifyLabels w f ids add rem).trace ↔ "STARRED" ∈ add) ∧
    (Ev.flagsAdd "INBOX" id ["\\Flagged"]
        ∈ (GenericMailManager.modifyLabels w f ids add rem).trace ↔ "IMPORTANT" ∈ add) ∧
    (Ev.flagsRemove "INBOX" id ["\\Starred"]
        ∈ (GenericMailManager.modifyLabels w f ids add rem).trace ↔ "STARRED" ∈ rem) ∧
    (Ev.flagsRemove "INBOX" id ["\\Flagged"]
        ∈ (GenericMailManager.modifyLabels w f ids add rem).trace ↔ "IMPORTANT" ∈ rem) ∧
    (Ev.imapMove "INBOX" id "Trash"
        ∈ (GenericMailManager.modifyLabels w f ids add rem).trace ↔ "TRASH" ∈ add) ∧
    (Ev.imapMove "INBOX" id "Archive"
        ∈ (GenericMailManager.modifyLabels w f ids add rem).trace ↔
      ("INBOX" ∈ rem ∧ ¬ "TRASH" ∈ add)) ∧
    (∀ e ∈ (GenericMailManager.modifyLabels w f ids add rem).trace, ∃ j, j ∈ ids ∧
      (e = Ev.lockAcquire "INBOX" ∨ e = Ev.lockRelease "INBOX" ∨
       e = Ev.flagsAdd "INBOX" j ["\\Starred"] ∨ e = Ev.flagsAdd "INBOX" j ["\\Flagged"] ∨
       e = Ev.flagsRemove "INBOX" j ["\\Starred"] ∨
       e = Ev.flagsRemove "INBOX" j ["\\Flagged"] ∨
       e = Ev.imapMove "INBOX" j "Trash" ∨ e = Ev.imapMove "INBOX" j "Archive")) := by
  rcases w with ⟨⟨cl, srv⟩, pop3⟩
  obtain ⟨srv2, hgo⟩ := modifyLabelsGo_norm f add rem ids cl srv hu hlo hl hst hmv
  have htr : (GenericMailManager.modifyLabels ⟨⟨cl, srv⟩, pop3⟩ f ids add rem).trace
      = (ids.map (oneBlock add rem)).flatten := by
    unfold GenericMailManager.modifyLabels
    rw [hgo]
  have hres : (GenericMailManager.modifyLabels ⟨⟨cl, srv⟩, pop3⟩ f ids add rem).result
      = .ok () := by
    unfold GenericMailManager.modifyLabels
    rw [hgo]
  rw [htr]
  refine ⟨hres, ?_, ?_, ?_, ?_, ?_, ?_, ?_⟩
  · constructor
    · intro hmem
      rw [List.mem_flatten] at hmem
      obtain ⟨blk, hblk, hin⟩ := hmem
      rw [List.mem_map] at hblk
      obtain ⟨j, hj, rfl⟩ := hblk
      by_cases hc : "STARRED" ∈ add
      · exact hc
      · exact absurd hin (oneBlock_no_addStar add rem j id (by simpa using hc))
    · intro hc
      rw [List.mem_flatten]
      exact ⟨oneBlock add rem id, List.mem_map_of_mem _ hid,
        oneBlock_has_addStar add rem id hc⟩
  · constructor
    · intro hmem
      rw [List.mem_flatten] at hmem
      obtain ⟨blk, hblk, hin⟩ := hmem
      rw [List.mem_map] at hblk
      obtain ⟨j, hj, rfl⟩ := hblk
      by_cases hc : "IMPORTANT" ∈ add
      · exact hc
      · exact absurd hin (oneBlock_no_addFlagged add rem j id (by simpa using hc))
    · intro hc
      rw [List.mem_flatten]
      exact ⟨oneBlock add rem id, List.mem_map_of_mem _ hid,
        oneBlock_has_addFlagged add rem id hc⟩
  · constructor
    · intro hmem
      rw [List.mem_flatten] at hmem
      obtain ⟨blk, hblk, hin⟩ := hmem
      rw [List.mem_map] at hblk
      obtain ⟨j, hj, rfl⟩ := hblk
      by_cases hc : "STARRED" ∈ rem
      · exact hc
      · exact absurd hin (oneBlock_no_remStar add rem j id (by simpa using hc))
    · intro hc
      rw [List.mem_flatten]
      exact ⟨oneBlock add rem id, List.mem_map_of_mem _ hid,
        oneBlock_has_remStar add rem id hc⟩
  · constructor
    · intro hmem
      rw [List.mem_flatten] at hmem
      obtain ⟨blk, hblk, hin⟩ := hmem
      rw [List.mem_map] at hblk
      obtain ⟨j, hj, rfl⟩ := hblk
      by_cases hc : "IMPORTANT" ∈ rem
      · exact hc
      · exact absurd hin (oneBlock_no_remFlagged add rem j id (by simpa using hc))
    · intro hc
      rw [List.mem_flatten]
      exact ⟨oneBlock add rem id, List.mem_map_of_mem _ hid,
        oneBlock_has_remFlagged add rem id hc⟩
  · constructor
    · intro hmem
      rw [List.mem_flatten] at hmem
      obtain ⟨blk, hblk, hin⟩ := hmem
      rw [List.mem_map] at hblk
      obtain ⟨j, hj, rfl⟩ := hblk
      by_cases hc : "TRASH" ∈ add
      · exact hc
      · exact absurd hin (oneBlock_no_moveTrash add rem j id (by simpa using hc))
    · intro hc
      rw [List.mem_flatten]
      exact ⟨oneBlock add rem id, List.mem_map_of_mem _ hid,
        oneBlock_has_moveTrash add rem id hc⟩
  · constructor
    · intro hmem
      rw [List.mem_flatten] at hmem
      obtain ⟨blk, hblk, hin⟩ := hmem
      rw [List.mem_map] at hblk
      obtain ⟨j, hj, rfl⟩ := hblk
      by_cases hc6 : "INBOX" ∈ rem
      · by_cases hc5 : "TRASH" ∈ add
        · exact absurd hin
            (oneBlock_no_moveArchive add rem j id (Or.inr (by simpa using hc5)))
        · exact ⟨hc6, hc5⟩
      · exact absurd hin
          (oneBlock_no_moveArchive add rem j id (Or.inl (by simpa using hc6)))
    · intro hc
      rw [List.mem_flatten]
      exact ⟨oneBlock add rem id, List.mem_map_of_mem _ hid,
        oneBlock_has_moveArchive add rem id hc.1 hc.2⟩
  · intro e he
    rw [List.mem_flatten] at he
    obtain ⟨blk, hblk, hin⟩ := he
    rw [List.mem_map] at hblk
    obtain ⟨j, hj, rfl⟩ := hblk
    refine ⟨j, hj, ?_⟩
    unfold oneBlock at hin
    simp only [List.mem_append] at hin
    rcases hin with ((((hin | hin) | hin) | hin) | hin)
    · revert hin
      split
      · intro hin
        fin_cases hin <;> tauto
      · intro hin
        simp at hin
    · revert hin
      split
      · intro hin
        fin_cases hin <;> tauto
      · intro hin
        simp at hin
    · revert hin
      split
      · intro hin
        fin_cases hin <;> tauto
      · intro hin
        simp at hin
    · revert hin
      split
      · intro hin
        fin_cases hin <;> tauto
      · intro hin
        simp at hin
    · revert hin
      split
      · intro hin
        fin_cases hin <;> tauto
      · split
        · intro hin
          fin_cases hin <;> tauto
        · intro hin
          simp at hin

theorem modifyLabels_trace_spec_witness :
    (GenericMailManager.modifyLabels c1world Faults.none ["3"] ["STARRED"] []).result
      = .ok () ∧
    (Ev.flagsAdd "INBOX" "3" ["\\Starred"]
        ∈ (GenericMailManager.modifyLabels c1world Faults.none ["3"] ["STARRED"] []).trace
      ↔ "STARRED" ∈ (["STARRED"] : List String)) ∧
    (Ev.flagsAdd "INBOX" "3" ["\\Flagged"]
        ∈ (GenericMailManager.modifyLabels c1world Faults.none ["3"] ["STARRED"] []).trace
      ↔ "IMPORTANT" ∈ (["STARRED"] : List String)) ∧
    (Ev.flagsRemove "INBOX" "3" ["\\Starred"]
        ∈ (GenericMailManager.modifyLabels c1world Faults.none ["3"] ["STARRED"] []).trace
      ↔ "STARRED" ∈ ([] : List String)) ∧
    (Ev.flagsRemove "INBOX" "3" ["\\Flagged"]
        ∈ (GenericMailManager.modifyLabels c1world Faults.none ["3"] ["STARRED"] []).trace
      ↔ "IMPORTANT" ∈ ([] : List String)) ∧
    (Ev.imapMove "INBOX" "3" "Trash"
        ∈ (GenericMailManager.modifyLabels c1world Faults.none ["3"] ["STARRED"] []).trace
      ↔ "TRASH" ∈ (["STARRED"] : List String)) ∧
    (Ev.imapMove "INBOX" "3" "Archive"
        ∈ (GenericMailManager.modifyLabels c1world Faults.none ["3"] ["STARRED"] []).trace
      ↔ ("INBOX" ∈ ([] : List String) ∧ ¬ "TRASH" ∈ (["STARRED"] : List String))) ∧
    (∀ e ∈ (GenericMailManager.modifyLabels c1world Faults.none ["3"] ["STARRED"] []).trace,
      ∃ j, j ∈ (["3"] : List String) ∧
      (e = Ev.lockAcquire "INBOX" ∨ e = Ev.lockRelease "INBOX" ∨
       e = Ev.flagsAdd "INBOX" j ["\\Starred"] ∨ e = Ev.flagsAdd "INBOX" j ["\\Flagged"] ∨
       e = Ev.flagsRemove "INBOX" j ["\\Starred"] ∨
       e = Ev.flagsRemove "INBOX" j ["\\Flagged"] ∨
       e = Ev.imapMove "INBOX" j "Trash" ∨ e = Ev.imapMove "INBOX" j "Archive")) :=
  modifyLabels_trace_spec c1world Faults.none ["3"] ["STARRED"] [] "3"
    (by decide) rfl rfl rfl rfl rfl

lemma truthyN_some_pos (N : Nat) (hN : 1 ≤ N) : truthyN (some N) = true := by
  simp only [truthyN, ne_eq, bne_iff_ne]
  omega

lemma truthyN_none : truthyN Option.none = false := rfl

lemma listMessages_count_pos (cl : ImapClient) (srv : ImapServer) (f : Faults)
    (mb : String) (N : Nat)
    (hu : cl.usable = true) (hlo : cl.loggedOut = false)
    (hl : f.lockFail = false) (hsf : f.statusFail = false) (hff : f.fetchFail = false)
    (hN : 1 ≤ N) (h0 : 0 < (getMb srv mb).length) :
    ImapService.listMessages ⟨cl, srv⟩ f mb Option.none (some N) =
      ⟨[Ev.lockAcquire mb, Ev.imapStatus mb,
        Ev.imapFetch mb (max 1 ((getMb srv mb).length - N + 1)) (getMb srv mb).length,
        Ev.lockRelease mb],
       .ok ((seqSlice (getMb srv mb) (max 1 ((getMb srv mb).length - N + 1))
          (getMb srv mb).length).map toBasicInfo),
       ⟨cl, srv⟩⟩ := by
  unfold ImapService.listMessages
  rw [cin_connected cl f hu hlo]
  simp [hl, hsf, hff, truthyN_some_pos N hN, truthyN_none, h0]

lemma listMessages_count_zero (cl : ImapClient) (srv : ImapServer) (f : Faults)
    (mb : String) (N : Nat)
    (hu : cl.usable = true) (hlo : cl.loggedOut = false)
    (hl : f.lockFail = false) (hsf : f.statusFail = false)
    (hN : 1 ≤ N) (h0 : (getMb srv mb).length = 0) :
    ImapService.listMessages ⟨cl, srv⟩ f mb Option.none (some N) =
      ⟨[Ev.lockAcquire mb, Ev.imapStatus mb, Ev.lockRelease mb], .ok [], ⟨cl, srv⟩⟩ := by
  unfold ImapService.listMessages
  rw [cin_connected cl f hu hlo]
  simp [hl, hsf, truthyN_some_pos N hN, truthyN_none, h0]

lemma getLast?_drop {α : Type} (l : List α) (d : Nat) (h : d < l.length) :
    (l.drop d).getLast? = l.getLast? := by
  induction l generalizing d with
  | nil => simp at h
  | cons x xs ih =>
    cases d with
    | zero => rfl
    | succ d2 =>
      rw [List.length_cons] at h
      have hd2 : d2 < xs.length := by omega
      have hxs : xs ≠ [] := by
        intro hnil
        rw [hnil] at hd2
        simp at hd2
      rw [List.drop_succ_cons, ih d2 hd2, List.getLast?_cons, List.getLast?_eq_getLast xs hxs]
      simp

/-- C3 (amended): with no POP3 configured, no pageToken, and a positive
maxResults = N (fault-free, connected client): a mailbox holding at
least N messages yields exactly N thread records and a nextPageToken
equal to (uid of the last returned message) + 1 — the mailbox's last
message; a mailbox holding fewer than N yields all of them and a null
token; and in general the token is non-null exactly when the returned
count equals N. -/
theorem list_page_token_spec (w : World) (f : Faults) (mb : String) (N : Nat)
    (hp : w.pop3 = Option.none)
    (hu : w.imap.client.usable = true) (hlo : w.imap.client.loggedOut = false)
    (hl : f.lockFail = false) (hsf : f.statusFail = false) (hff : f.fetchFail = false)
    (hN : 1 ≤ N) :
    ∃ res, (GenericMailManager.list w f mb Option.none (some N)).result = .ok res ∧
      (N ≤ (getMb w.imap.server mb).length →
        res.threads.length = N ∧
        ∃ last, (getMb w.imap.server mb).getLast? = some last ∧
          res.nextPageToken = some (toString (last.uid + 1))) ∧
      ((getMb w.imap.server mb).length < N →
        res.threads.length = (getMb w.imap.server mb).length ∧
        res.nextPageToken = Option.none) ∧
      (res.nextPageToken ≠ Option.none ↔ res.threads.length = N) := by
  rcases w with ⟨⟨cl, srv⟩, pop3⟩
  simp only at hp hu hlo
  subst hp
  show ∃ res, (GenericMailManager.list ⟨⟨cl, srv⟩, Option.none⟩ f mb Option.none
      (some N)).result = .ok res ∧
    (N ≤ (getMb srv mb).length →
      res.threads.length = N ∧
      ∃ last, (getMb srv mb).getLast? = some last ∧
        res.nextPageToken = some (toString (last.uid + 1))) ∧
    ((getMb srv mb).length < N →
      res.threads.length = (getMb srv mb).length ∧
      res.nextPageToken = Option.none) ∧
    (res.nextPageToken ≠ Option.none ↔ res.threads.length = N)
  by_cases h0 : 0 < (getMb srv mb).length
  · have hmax : max 1 ((getMb srv mb).length - N + 1) = (getMb srv mb).length - N + 1 := by
      omega
    have e1 : ((getMb srv mb).length - N + 1) - 1 = (getMb srv mb).length - N := by omega
    have e2 : (getMb srv mb).length + 1 - ((getMb srv mb).length - N + 1)
        = (getMb srv mb).length - ((getMb srv mb).length - N) := by omega
    have hslice : seqSlice (getMb srv mb) ((getMb srv mb).length - N + 1)
        (getMb srv mb).length
        = ((getMb srv mb).drop ((getMb srv mb).length - N)).take
            ((getMb srv mb).length - ((getMb srv mb).length - N)) := by
      unfold seqSlice
      rw [e1, e2]
    unfold GenericMailManager.list
    dsimp only
    rw [listMessages_count_pos cl srv f mb N hu hlo hl hsf hff hN h0]
    dsimp only
    rw [hmax, hslice]
    by_cases hcase : N ≤ (getMb srv mb).length
    · have hdl : ((getMb srv mb).drop ((getMb srv mb).length - N)).length = N := by
        rw [List.length_drop]
        omega
      have hcnt : (getMb srv mb).length - ((getMb srv mb).length - N) = N := by omega
      have htake : ((getMb srv mb).drop ((getMb srv mb).length - N)).take
          ((getMb srv mb).length - ((getMb srv mb).length - N))
          = (getMb srv mb).drop ((getMb srv mb).length - N) := by
        rw [hcnt]
        exact List.take_of_length_le (le_of_eq hdl)
      rw [htake]
      obtain ⟨last, hlast⟩ : ∃ l2, (getMb srv mb).getLast? = some l2 := by
        cases hL2 : (getMb srv mb).getLast? with
        | none =>
          rw [List.getLast?_eq_none_iff] at hL2
          rw [hL2] at h0
          simp at h0
        | some x => exact ⟨x, rfl⟩
      have hdropLast : ((getMb srv mb).drop ((getMb srv mb).length - N)).getLast?
          = some last := by
        rw [getLast?_drop _ _ (by omega)]
        exact hlast
      have hmapLen :
          (((getMb srv mb).drop ((getMb srv mb).length - N)).map toBasicInfo).length
            = N := by
        rw [List.length_map]
        exact hdl
      have hmapLast :
          (((getMb srv mb).drop ((getMb srv mb).length - N)).map toBasicInfo).getLast?
            = some (toBasicInfo last) := by
        rw [List.getLast?_map, hdropLast]
        rfl
      have hcond : (decide
            ((((getMb srv mb).drop ((getMb srv mb).length - N)).map toBasicInfo).length > 0)
          && truthyN (some N)
          && ((((getMb srv mb).drop ((getMb srv mb).length - N)).map toBasicInfo).length
              == N)) = true := by
        rw [hmapLen, truthyN_some_pos N hN]
        simp
        omega
      refine ⟨_, rfl, ?_, ?_, ?_⟩
      · intro _
        constructor
        · rw [List.length_map]
          exact hmapLen
        · refine ⟨last, hlast, ?_⟩
          dsimp only
          simp only [Option.getD_some]
          simp only [hcond, if_true]
          rw [hmapLast]
          rfl
      · intro hlt
        omega
      · constructor
        · intro _
          rw [List.length_map]
          exact hmapLen
        · intro _
          dsimp only
          simp only [Option.getD_some]
          simp only [hcond, if_true]
          rw [hmapLast]
          simp
    · have hlt : (getMb srv mb).length < N := by omega
      have hd0 : (getMb srv mb).length - N = 0 := by omega
      have htake : ((getMb srv mb).drop ((getMb srv mb).length - N)).take
          ((getMb srv mb).length - ((getMb srv mb).length - N))
          = getMb srv mb := by
        rw [hd0]
        simp
      rw [htake]
      have hmapLen : ((getMb srv mb).map toBasicInfo).length = (getMb srv mb).length := by
        rw [List.length_map]
      have hcond : (decide (((getMb srv mb).map toBasicInfo).length > 0)
          && truthyN (some N)
          && (((getMb srv mb).map toBasicInfo).length == N)) = false := by
        rw [hmapLen]
        have hne : ((getMb srv mb).length == N) = false := by
          rw [beq_eq_false_iff_ne]
          omega
        rw [hne]
        simp
      refine ⟨_, rfl, ?_, ?_, ?_⟩
      · intro hle
        omega
      · intro _
        constructor
        · rw [List.length_map]
          exact hmapLen
        · dsimp only
          simp only [Option.getD_some]
          simp only [hcond]
          simp
      · dsimp only
        simp only [Option.getD_some]
        simp only [hcond, Bool.false_eq_true, if_false]
        constructor
        · intro hcon
          exact absurd rfl hcon
        · intro hlen
          rw [List.length_map, hmapLen] at hlen
          omega
  · have h0' : (getMb srv mb).length = 0 := by omega
    unfold GenericMailManager.list
    dsimp only
    rw [listMessages_count_zero cl srv f mb N hu hlo hl hsf hN h0']
    dsimp only
    refine ⟨⟨[], Option.none⟩, rfl, ?_, ?_, ?_⟩
    · intro hle
      omega
    · intro _
      exact ⟨by simp [h0'], rfl⟩
    · constructor
      · intro hcon
        exact absurd rfl hcon
      · intro hlen
        simp at hlen
        omega

/-- C3 counterexample: maxResults = 0.  The mailbox holds 1 (hence at
least 0) messages, yet the call returns 1 record — not exactly 0 — and
a null token rather than a non-null one: 0 is falsy in the source's
truthiness checks, so the page-size contract fails at N = 0. -/
theorem list_maxResults_zero_counterexample :
    (getMb c1world.imap.server "INBOX").length = 1 ∧
    ∃ res, (GenericMailManager.list c1world Faults.none "INBOX" Option.none
        (some 0)).result = .ok res ∧
      res.threads = ["3"] ∧ ¬ res.threads.length = 0 ∧
      res.nextPageToken = Option.none := by
  refine ⟨rfl, ⟨["3"], Option.none⟩, rfl, rfl, by decide, rfl⟩

theorem list_page_token_spec_witness :
    ∃ res, (GenericMailManager.list c1world Faults.none "INBOX" Option.none
        (some 1)).result = .ok res ∧
      (1 ≤ (getMb c1world.imap.server "INBOX").length →
        res.threads.length = 1 ∧
        ∃ last, (getMb c1world.imap.server "INBOX").getLast? = some last ∧
          res.nextPageToken = some (toString (last.uid + 1))) ∧
      ((getMb c1world.imap.server "INBOX").length < 1 →
        res.threads.length = (getMb c1world.imap.server "INBOX").length ∧
        res.nextPageToken = Option.none) ∧
      (res.nextPageToken ≠ Option.none ↔ res.threads.length = 1) :=
  list_page_token_spec c1world Faults.none "INBOX" 1 rfl rfl rfl rfl rfl rfl
    (by decide)

/-- Structural equality of errors (String fields compared with ==). -/
def JsError.beq : JsError → JsError → Bool
  | .protocol m, .protocol m2 => m == m2
  | .standardized m c (some e1), .standardized m2 c2 (some e2) =>
      m == m2 && c == c2 && JsError.beq e1 e2
  | .standardized m c Option.none, .standardized m2 c2 Option.none => m == m2 && c == c2
  | _, _ => false

/-- Does the error equal the target or wrap it (transitively) as cause? -/
def errContains : JsError → JsError → Bool
  | .protocol m, target => JsError.beq (.protocol m) target
  | .standardized m c Option.none, target => JsError.beq (.standardized m c Option.none) target
  | .standardized m c (some cause), target =>
      JsError.beq (.standardized m c (some cause)) target || errContains cause target

lemma connectIfNeeded_ok (c : ImapClient) (f : Faults) (hcf : f.connectFail = false) :
    ∃ t c2, ImapService.connectIfNeeded c f = (t, .ok c2) := by
  by_cases hu : c.usable = true
  · by_cases hlo : c.loggedOut = true
    · exact ⟨[], c, by simp [ImapService.connectIfNeeded, ImapService.connect, hu, hlo]⟩
    · exact ⟨[], c, by simp [ImapService.connectIfNeeded, hu, hlo]⟩
  · refine ⟨[Ev.connectAttempt], ⟨true, false⟩, ?_⟩
    have hu2 : c.usable = false := by
      cases hx : c.usable
      · rfl
      · exact absurd hx hu
    simp [ImapService.connectIfNeeded, ImapService.connect, hu2, hcf]

lemma fetchMessage_lockfail (s : ImapState) (f : Faults) (mb uid : String)
    (hcf : f.connectFail = false) (hl : f.lockFail = true) :
    ∃ t s2, ImapService.fetchMessage s f mb uid =
      ⟨t, .error (.protocol "getMailboxLock"), s2⟩ := by
  obtain ⟨t, c2, hc⟩ := connectIfNeeded_ok s.client f hcf
  unfold ImapService.fetchMessage
  rw [hc]
  exact ⟨t, ⟨c2, s.server⟩, by simp [hl]⟩

lemma listMessages_lockfail (s : ImapState) (f : Faults) (mb : String) (a b : Option Nat)
    (hcf : f.connectFail = false) (hl : f.lockFail = true) :
    ∃ t s2, ImapService.listMessages s f mb a b =
      ⟨t, .error (.protocol "getMailboxLock"), s2⟩ := by
  obtain ⟨t, c2, hc⟩ := connectIfNeeded_ok s.client f hcf
  unfold ImapService.listMessages
  rw [hc]
  exact ⟨t, ⟨c2, s.server⟩, by simp [hl]⟩

lemma downloadAttachment_lockfail (s : ImapState) (f : Faults) (mb uid part : String)
    (hcf : f.connectFail = false) (hl : f.lockFail = true) :
    ∃ t s2, ImapService.downloadAttachment s f mb uid part =
      ⟨t, .error (.protocol "getMailboxLock"), s2⟩ := by
  obtain ⟨t, c2, hc⟩ := connectIfNeeded_ok s.client f hcf
  unfold ImapService.downloadAttachment
  rw [hc]
  exact ⟨t, ⟨c2, s.server⟩, by simp [hl]⟩

lemma setFlags_lockfail (s : ImapState) (f : Faults) (mb uid : String) (fl : List String)
    (hcf : f.connectFail = false) (hl : f.lockFail = true) :
    ∃ t s2, ImapService.setFlags s f mb uid fl =
      ⟨t, .error (.protocol "getMailboxLock"), s2⟩ := by
  obtain ⟨t, c2, hc⟩ := connectIfNeeded_ok s.client f hcf
  unfold ImapService.setFlags
  rw [hc]
  exact ⟨t, ⟨c2, s.server⟩, by simp [hl]⟩

lemma unsetFlags_lockfail (s : ImapState) (f : Faults) (mb uid : String) (fl : List String)
    (hcf : f.connectFail = false) (hl : f.lockFail = true) :
    ∃ t s2, ImapService.unsetFlags s f mb uid fl =
      ⟨t, .error (.protocol "getMailboxLock"), s2⟩ := by
  obtain ⟨t, c2, hc⟩ := connectIfNeeded_ok s.client f hcf
  unfold ImapService.unsetFlags
  rw [hc]
  exact ⟨t, ⟨c2, s.server⟩, by simp [hl]⟩

lemma moveMessage_lockfail (s : ImapState) (f : Faults) (mb uid dest : String)
    (hcf : f.connectFail = false) (hl : f.lockFail = true) :
    ∃ t s2, ImapService.moveMessage s f mb uid dest =
      ⟨t, .error (.protocol "getMailboxLock"), s2⟩ := by
  obtain ⟨t, c2, hc⟩ := connectIfNeeded_ok s.client f hcf
  unfold ImapService.moveMessage
  rw [hc]
  exact ⟨t, ⟨c2, s.server⟩, by simp [hl]⟩

/-- The fault flag consulted by each protocol event: an event e emitted
while `evFails f e` holds is a command that threw.  Lock-acquisition
events are tied to the getMailboxLock fault (the embedding emits the
event only when the lock was granted, so a clean trace also certifies
that no lock was taken while getMailboxLock was throwing); lock releases
and the best-effort POP3 QUIT never throw. -/
def evFails (f : Faults) : Ev → Bool
  | .connectAttempt => f.connectFail
  | .lockAcquire _ => f.lockFail
  | .lockRelease _ => false
  | .imapStatus _ => f.statusFail
  | .imapFetch _ _ _ => f.fetchFail
  | .imapFetchOne _ _ => f.fetchFail
  | .flagsAdd _ _ _ => f.storeFail
  | .flagsRemove _ _ _ => f.storeFail
  | .imapMove _ _ _ => f.moveFail
  | .imapDownload _ _ _ => f.downloadFail
  | .imapLogout => f.logoutFail
  | .pop3List => f.pop3ListFail
  | .pop3Retr _ => f.pop3RetrFail
  | .pop3Quit => false
  | .smtpSend => f.smtpFail

/-- A trace in which every issued protocol command succeeded. -/
def cleanTrace (f : Faults) (t : List Ev) : Prop := ∀ e ∈ t, evFails f e = false

lemma cleanTrace_nil (f : Faults) : cleanTrace f [] := by
  intro e he
  cases he

lemma cleanTrace_append (f : Faults) (t1 t2 : List Ev) (h1 : cleanTrace f t1)
    (h2 : cleanTrace f t2) : cleanTrace f (t1 ++ t2) := by
  intro e he
  rcases List.mem_append.1 he with h | h
  · exact h1 e h
  · exact h2 e h

lemma connect_clean (c : ImapClient) (f : Faults) (c2 : ImapClient)
    (h : (ImapService.connect c f).2 = .ok c2) :
    cleanTrace f (ImapService.connect c f).1 := by
  unfold ImapService.connect at h ⊢
  by_cases hu : c.usable = true
  · simp [hu, cleanTrace]
  · by_cases hcf : f.connectFail = true
    · simp [hu, hcf] at h
    · have hcf2 : f.connectFail = false := by simpa using hcf
      simp [hu, hcf2, cleanTrace, evFails]

lemma connectIfNeeded_clean (c : ImapClient) (f : Faults) (c2 : ImapClient)
    (h : (ImapService.connectIfNeeded c f).2 = .ok c2) :
    cleanTrace f (ImapService.connectIfNeeded c f).1 := by
  unfold ImapService.connectIfNeeded at h ⊢
  by_cases hcond : (!c.usable || c.loggedOut) = true
  · rw [if_pos hcond] at h ⊢
    exact connect_clean c f c2 h
  · rw [if_neg hcond]
    exact cleanTrace_nil f

lemma setFlags_clean (s : ImapState) (f : Faults) (mb uid : String) (fl : List String)
    (v : Unit) (h : (ImapService.setFlags s f mb uid fl).result = .ok v) :
    cleanTrace f (ImapService.setFlags s f mb uid fl).trace := by
  rcases hc : ImapService.connectIfNeeded s.client f with ⟨ct, r⟩
  unfold ImapService.setFlags at h ⊢
  rw [hc] at h ⊢
  cases r with
  | error e => simp at h
  | ok c =>
    have hctc : cleanTrace f ct := by
      have h2 := connectIfNeeded_clean s.client f c (by rw [hc])
      rw [hc] at h2
      exact h2
    by_cases h1 : f.lockFail = true
    · simp [h1] at h
    · have h1' : f.lockFail = false := by simpa using h1
      by_cases h2 : f.storeFail = true
      · simp [h1', h2] at h
      · have h2' : f.storeFail = false := by simpa using h2
        simp only [h1', h2', Bool.false_eq_true, if_false]
        refine cleanTrace_append f _ _ hctc ?_
        intro e he
        simp only [List.mem_cons, List.not_mem_nil, or_false] at he
        rcases he with rfl | rfl | rfl <;> simp [evFails, h1', h2']

lemma unsetFlags_clean (s : ImapState) (f : Faults) (mb uid : String) (fl : List String)
    (v : Unit) (h : (ImapService.unsetFlags s f mb uid fl).result = .ok v) :
    cleanTrace f (ImapService.unsetFlags s f mb uid fl).trace := by
  rcases hc : ImapService.connectIfNeeded s.client f with ⟨ct, r⟩
  unfold ImapService.unsetFlags at h ⊢
  rw [hc] at h ⊢
  cases r with
  | error e => simp at h
  | ok c =>
    have hctc : cleanTrace f ct := by
      have h2 := connectIfNeeded_clean s.client f c (by rw [hc])
      rw [hc] at h2
      exact h2
    by_cases h1 : f.lockFail = true
    · simp [h1] at h
    · have h1' : f.lockFail = false := by simpa using h1
      by_cases h2 : f.storeFail = true
      · simp [h1', h2] at h
      · have h2' : f.storeFail = false := by simpa using h2
        simp only [h1', h2', Bool.false_eq_true, if_false]
        refine cleanTrace_append f _ _ hctc ?_
        intro e he
        simp only [List.mem_cons, List.not_mem_nil, or_false] at he
        rcases he with rfl | rfl | rfl <;> simp [evFails, h1', h2']

lemma moveMessage_clean (s : ImapState) (f : Faults) (mb uid dest : String)
    (v : Unit) (h : (ImapService.moveMessage s f mb uid dest).result = .ok v) :
    cleanTrace f (ImapService.moveMessage s f mb uid dest).trace := by
  rcases hc : ImapService.connectIfNeeded s.client f with ⟨ct, r⟩
  unfold ImapService.moveMessage at h ⊢
  rw [hc] at h ⊢
  cases r with
  | error e => simp at h
  | ok c =>
    have hctc : cleanTrace f ct := by
      have h2 := connectIfNeeded_clean s.client f c (by rw [hc])
      rw [hc] at h2
      exact h2
    by_cases h1 : f.lockFail = true
    · simp [h1] at h
    · have h1' : f.lockFail = false := by simpa using h1
      by_cases h2 : f.moveFail = true
      · simp [h1', h2] at h
      · have h2' : f.moveFail = false := by simpa using h2
        simp only [h1', h2', Bool.false_eq_true, if_false]
        refine cleanTrace_append f _ _ hctc ?_
        intro e he
        simp only [List.mem_cons, List.not_mem_nil, or_false] at he
        rcases he with rfl | rfl | rfl <;> simp [evFails, h1', h2']

lemma fetchMessage_clean (s : ImapState) (f : Faults) (mb uid : String)
    (v : Option ImapMessage)
    (h : (ImapService.fetchMessage s f mb uid).result = .ok v) :
    cleanTrace f (ImapService.fetchMessage s f mb uid).trace := by
  rcases hc : ImapService.connectIfNeeded s.client f with ⟨ct, r⟩
  unfold ImapService.fetchMessage at h ⊢
  rw [hc] at h ⊢
  cases r with
  | error e => simp at h
  | ok c =>
    have hctc : cleanTrace f ct := by
      have h2 := connectIfNeeded_clean s.client f c (by rw [hc])
      rw [hc] at h2
      exact h2
    by_cases h1 : f.lockFail = true
    · simp [h1] at h
    · have h1' : f.lockFail = false := by simpa using h1
      by_cases h2 : f.fetchFail = true
      · simp [h1', h2] at h
      · have h2' : f.fetchFail = false := by simpa using h2
        simp only [h1', h2', Bool.false_eq_true, if_false]
        refine cleanTrace_append f _ _ hctc ?_
        intro e he
        simp only [List.mem_cons, List.not_mem_nil, or_false] at he
        rcases he with rfl | rfl | rfl <;> simp [evFails, h1', h2']

lemma downloadAttachment_clean (s : ImapState) (f : Faults) (mb uid part : String)
    (v : Option String)
    (h : (ImapService.downloadAttachment s f mb uid part).result = .ok v) :
    cleanTrace f (ImapService.downloadAttachment s f mb uid part).trace := by
  rcases hc : ImapService.connectIfNeeded s.client f with ⟨ct, r⟩
  unfold ImapService.downloadAttachment at h ⊢
  rw [hc] at h ⊢
  cases r with
  | error e => simp at h
  | ok c =>
    have hctc : cleanTrace f ct := by
      have h2 := connectIfNeeded_clean s.client f c (by rw [hc])
      rw [hc] at h2
      exact h2
    by_cases h1 : f.lockFail = true
    · simp [h1] at h
    · have h1' : f.lockFail = false := by simpa using h1
      by_cases h2 : f.downloadFail = true
      · simp [h1', h2] at h
      · have h2' : f.downloadFail = false := by simpa using h2
        simp only [h1', h2', Bool.false_eq_true, if_false]
        refine cleanTrace_append f _ _ hctc ?_
        intro e he
        simp only [List.mem_cons, List.not_mem_nil, or_false] at he
        rcases he with rfl | rfl | rfl <;> simp [evFails, h1', h2']

lemma listMessages_clean (s : ImapState) (f : Faults) (mb : String) (a b : Option Nat)
    (v : List BasicMessageInfo)
    (h : (ImapService.listMessages s f mb a b).result = .ok v) :
    cleanTrace f (ImapService.listMessages s f mb a b).trace := by
  rcases hc : ImapService.connectIfNeeded s.client f with ⟨ct, r⟩
  unfold ImapService.listMessages at h ⊢
  rw [hc] at h ⊢
  cases r with
  | error e => simp at h
  | ok c =>
    have hctc : cleanTrace f ct := by
      have h2 := connectIfNeeded_clean s.client f c (by rw [hc])
      rw [hc] at h2
      exact h2
    by_cases h1 : f.lockFail = true
    · simp [h1] at h
    · have h1' : f.lockFail = false := by simpa using h1
      by_cases h2 : truthyN a = true
      · by_cases h3 : truthyN b = true
        · by_cases h5 : f.fetchFail = true
          · simp [h1', h2, h3, h5] at h
          · have h5' : f.fetchFail = false := by simpa using h5
            simp [h1', h2, h3, h5']
            refine cleanTrace_append f _ _ hctc ?_
            intro e he
            simp only [List.mem_cons, List.not_mem_nil, or_false] at he
            rcases he with rfl | rfl | rfl <;> simp [evFails, h1', h5']
        · have h3' : truthyN b = false := by simpa using h3
          by_cases h5 : f.fetchFail = true
          · simp [h1', h2, h3', h5] at h
          · have h5' : f.fetchFail = false := by simpa using h5
            simp [h1', h2, h3', h5']
            refine cleanTrace_append f _ _ hctc ?_
            intro e he
            simp only [List.mem_cons, List.not_mem_nil, or_false] at he
            rcases he with rfl | rfl | rfl <;> simp [evFails, h1', h5']
      · have h2' : truthyN a = false := by simpa using h2
        by_cases h3 : truthyN b = true
        · by_cases h4 : f.statusFail = true
          · simp [h1', h2', h3, h4] at h
          · have h4' : f.statusFail = false := by simpa using h4
            by_cases h6 : 0 < (getMb s.server mb).length
            · by_cases h5 : f.fetchFail = true
              · simp [h1', h2', h3, h4', h5, h6] at h
              · have h5' : f.fetchFail = false := by simpa using h5
                simp [h1', h2', h3, h4', h5', h6]
                refine cleanTrace_append f _ _ hctc ?_
                intro e he
                simp only [List.mem_cons, List.not_mem_nil, or_false] at he
                rcases he with rfl | rfl | rfl | rfl <;> simp [evFails, h1', h4', h5']
            · simp [h1', h2', h3, h4', h6]
              refine cleanTrace_append f _ _ hctc ?_
              intro e he
              simp only [List.mem_cons, List.not_mem_nil, or_false] at he
              rcases he with rfl | rfl | rfl <;> simp [evFails, h1', h4']
        · have h3' : truthyN b = false := by simpa using h3
          by_cases h5 : f.fetchFail = true
          · simp [h1', h2', h3', h5] at h
          · have h5' : f.fetchFail = false := by simpa using h5
            simp [h1', h2', h3', h5']
            refine cleanTrace_append f _ _ hctc ?_
            intro e he
            simp only [List.mem_cons, List.not_mem_nil, or_false] at he
            rcases he with rfl | rfl | rfl <;> simp [evFails, h1', h5']

lemma pop3_listMessages_clean (msgs : List String) (f : Faults) (v : List Nat)
    (h : (Pop3Service.listMessages msgs f).2 = .ok v) :
    cleanTrace f (Pop3Service.listMessages msgs f).1 := by
  unfold Pop3Service.listMessages at h ⊢
  by_cases hl : f.pop3ListFail = true
  · simp [hl] at h
  · have hl' : f.pop3ListFail = false := by simpa using hl
    simp [hl', cleanTrace, evFails]

lemma pop3_fetchMessage_clean (msgs : List String) (f : Faults) (n : Option Nat)
    (raw : String) (h : (Pop3Service.fetchMessage msgs f n).2 = .ok raw) :
    cleanTrace f (Pop3Service.fetchMessage msgs f n).1 := by
  unfold Pop3Service.fetchMessage at h ⊢
  by_cases hr : f.pop3RetrFail = true
  · simp [hr] at h
  · have hr' : f.pop3RetrFail = false := by simpa using hr
    simp [hr', cleanTrace, evFails]

/-- A unit-valued service step that only resolves when every command it
issued succeeded. -/
def CleanOk (f : Faults) (r : SRes Unit) : Prop :=
  ∀ v, r.result = .ok v → cleanTrace f r.trace

lemma seqRes_clean (f : Faults) {r : SRes Unit} {k : ImapState → SRes Unit}
    (hr : CleanOk f r) (hk : ∀ s, CleanOk f (k s)) :
    CleanOk f (GenericMailManager.seqRes r k) := by
  intro v h
  unfold GenericMailManager.seqRes at h ⊢
  cases hres : r.result with
  | error e =>
    simp only [hres] at h
    simp at h
  | ok u =>
    simp only [hres] at h ⊢
    exact cleanTrace_append f _ _ (hr u hres) (hk r.state v h)

lemma ite_clean (f : Faults) {c : Prop} [Decidable c] {r1 r2 : SRes Unit}
    (h1 : CleanOk f r1) (h2 : CleanOk f r2) : CleanOk f (if c then r1 else r2) := by
  by_cases hc : c
  · rw [if_pos hc]
    exact h1
  · rw [if_neg hc]
    exact h2

lemma skipRes_cleanOk (f : Faults) (s : ImapState) :
    CleanOk f (GenericMailManager.skipRes s) :=
  fun _ _ => cleanTrace_nil f

lemma setFlags_cleanOk (s : ImapState) (f : Faults) (mb uid : String) (fl : List String) :
    CleanOk f (ImapService.setFlags s f mb uid fl) :=
  fun v h => setFlags_clean s f mb uid fl v h

lemma unsetFlags_cleanOk (s : ImapState) (f : Faults) (mb uid : String) (fl : List String) :
    CleanOk f (ImapService.unsetFlags s f mb uid fl) :=
  fun v h => unsetFlags_clean s f mb uid fl v h

lemma moveMessage_cleanOk (s : ImapState) (f : Faults) (mb uid dest : String) :
    CleanOk f (ImapService.moveMessage s f mb uid dest) :=
  fun v h => moveMessage_clean s f mb uid dest v h

lemma modifyLabelsOne_cleanOk (f : Faults) (add rem : List String) (id : String)
    (s : ImapState) : CleanOk f (GenericMailManager.modifyLabelsOne f add rem id s) := by
  unfold GenericMailManager.modifyLabelsOne
  refine seqRes_clean f
    (ite_clean f (setFlags_cleanOk s f "INBOX" id ["\\Starred"]) (skipRes_cleanOk f s)) ?_
  intro s1
  refine seqRes_clean f
    (ite_clean f (setFlags_cleanOk s1 f "INBOX" id ["\\Flagged"]) (skipRes_cleanOk f s1)) ?_
  intro s2
  refine seqRes_clean f
    (ite_clean f (unsetFlags_cleanOk s2 f "INBOX" id ["\\Starred"]) (skipRes_cleanOk f s2)) ?_
  intro s3
  refine seqRes_clean f
    (ite_clean f (unsetFlags_cleanOk s3 f "INBOX" id ["\\Flagged"]) (skipRes_cleanOk f s3)) ?_
  intro s4
  exact ite_clean f (moveMessage_cleanOk s4 f "INBOX" id "Trash")
    (ite_clean f (moveMessage_cleanOk s4 f "INBOX" id "Archive") (skipRes_cleanOk f s4))

lemma markAsReadGo_clean (f : Faults) (ids : List String) : ∀ (s : ImapState) (v : Unit),
    (GenericMailManager.markAsReadGo f ids s).result = .ok v →
    cleanTrace f (GenericMailManager.markAsReadGo f ids s).trace := by
  induction ids with
  | nil =>
    intro s v h
    exact cleanTrace_nil f
  | cons id rest ih =>
    intro s v h
    unfold GenericMailManager.markAsReadGo at h ⊢
    cases hres : (ImapService.setFlags s f "INBOX" id ["\\Seen"]).result with
    | error e =>
      simp only [hres] at h
      simp at h
    | ok u =>
      simp only [hres] at h ⊢
      exact cleanTrace_append f _ _ (setFlags_clean s f "INBOX" id ["\\Seen"] u hres)
        (ih _ v h)

lemma markAsUnreadGo_clean (f : Faults) (ids : List String) : ∀ (s : ImapState) (v : Unit),
    (GenericMailManager.markAsUnreadGo f ids s).result = .ok v →
    cleanTrace f (GenericMailManager.markAsUnreadGo f ids s).trace := by
  induction ids with
  | nil =>
    intro s v h
    exact cleanTrace_nil f
  | cons id rest ih =>
    intro s v h
    unfold GenericMailManager.markAsUnreadGo at h ⊢
    cases hres : (ImapService.unsetFlags s f "INBOX" id ["\\Seen"]).result with
    | error e =>
      simp only [hres] at h
      simp at h
    | ok u =>
      simp only [hres] at h ⊢
      exact cleanTrace_append f _ _ (unsetFlags_clean s f "INBOX" id ["\\Seen"] u hres)
        (ih _ v h)

lemma modifyLabelsGo_clean (f : Faults) (add rem : List String) (ids : List String) :
    ∀ (s : ImapState) (v : Unit),
    (GenericMailManager.modifyLabelsGo f add rem ids s).result = .ok v →
    cleanTrace f (GenericMailManager.modifyLabelsGo f add rem ids s).trace := by
  induction ids with
  | nil =>
    intro s v h
    exact cleanTrace_nil f
  | cons id rest ih =>
    intro s v h
    unfold GenericMailManager.modifyLabelsGo at h ⊢
    cases hres : (GenericMailManager.modifyLabelsOne f add rem id s).result with
    | error e =>
      simp only [hres] at h
      simp at h
    | ok u =>
      simp only [hres] at h ⊢
      exact cleanTrace_append f _ _ (modifyLabelsOne_cleanOk f add rem id s u hres)
        (ih _ v h)

lemma get_clean (w : World) (f : Faults) (id : String) (v : GetThreadResponse)
    (h : (GenericMailManager.get w f id).result = .ok v) :
    cleanTrace f (GenericMailManager.get w f id).trace := by
  unfold GenericMailManager.get at h ⊢
  rcases hp : w.pop3 with _ | msgs
  · simp only [hp] at h ⊢
    cases hres : (ImapService.fetchMessage w.imap f "INBOX" id).result with
    | error e =>
      simp only [hres] at h
      simp at h
    | ok mo =>
      cases mo with
      | none =>
        simp only [hres] at h
        simp at h
      | some m =>
        simp only [hres] at h ⊢
        exact fetchMessage_clean w.imap f "INBOX" id (some m) hres
  · simp only [hp] at h ⊢
    rcases hr : Pop3Service.fetchMessage msgs f (jsNumber id) with ⟨t, res⟩
    simp only [hr] at h ⊢
    cases res with
    | error e => simp at h
    | ok raw =>
      have hclean : cleanTrace f t := by
        have h2 := pop3_fetchMessage_clean msgs f (jsNumber id) raw (by rw [hr])
        rw [hr] at h2
        exact h2
      by_cases hraw : raw = ""
      · simp [hraw] at h
      · simp only [hraw, if_false]
        exact hclean

lemma list_clean (w : World) (f : Faults) (folder : String) (pt mr : Option Nat)
    (v : ListResult) (h : (GenericMailManager.list w f folder pt mr).result = .ok v) :
    cleanTrace f (GenericMailManager.list w f folder pt mr).trace := by
  unfold GenericMailManager.list at h ⊢
  rcases hp : w.pop3 with _ | msgs
  · simp only [hp] at h ⊢
    cases hres : (ImapService.listMessages w.imap f folder pt mr).result with
    | error e =>
      simp only [hres] at h
      simp at h
    | ok msgsr =>
      simp only [hres] at h ⊢
      exact listMessages_clean w.imap f folder pt mr msgsr hres
  · simp only [hp] at h ⊢
    rcases hl : Pop3Service.listMessages msgs f with ⟨t, res⟩
    simp only [hl] at h ⊢
    cases res with
    | error e => simp at h
    | ok nums =>
      have h2 := pop3_listMessages_clean msgs f nums (by rw [hl])
      rw [hl] at h2
      exact h2

lemma listDrafts_clean (w : World) (f : Faults) (pt mr : Option Nat) (v : ListResult)
    (h : (GenericMailManager.listDrafts w f pt mr).result = .ok v) :
    cleanTrace f (GenericMailManager.listDrafts w f pt mr).trace :=
  list_clean w f "Drafts" pt mr v h

lemma markAsRead_clean (w : World) (f : Faults) (tids : List String) (v : Unit)
    (h : (GenericMailManager.markAsRead w f tids).result = .ok v) :
    cleanTrace f (GenericMailManager.markAsRead w f tids).trace :=
  markAsReadGo_clean f tids w.imap v h

lemma markAsUnread_clean (w : World) (f : Faults) (tids : List String) (v : Unit)
    (h : (GenericMailManager.markAsUnread w f tids).result = .ok v) :
    cleanTrace f (GenericMailManager.markAsUnread w f tids).trace :=
  markAsUnreadGo_clean f tids w.imap v h

lemma modifyLabels_clean (w : World) (f : Faults) (ids add rem : List String) (v : Unit)
    (h : (GenericMailManager.modifyLabels w f ids add rem).result = .ok v) :
    cleanTrace f (GenericMailManager.modifyLabels w f ids add rem).trace :=
  modifyLabelsGo_clean f add rem ids w.imap v h

lemma delete_clean (w : World) (f : Faults) (id : String) (v : Unit)
    (h : (GenericMailManager.delete w f id).result = .ok v) :
    cleanTrace f (GenericMailManager.delete w f id).trace := by
  unfold GenericMailManager.delete at h ⊢
  cases hres : (ImapService.moveMessage w.imap f "INBOX" id "Trash").result with
  | ok u =>
    simp only [hres] at h ⊢
    exact moveMessage_clean w.imap f "INBOX" id "Trash" u hres
  | error e =>
    simp only [hres] at h
    rcases hsf : (ImapService.setFlags
        (ImapService.moveMessage w.imap f "INBOX" id "Trash").state
        f "INBOX" id ["\\Deleted"]).result with e2 | u2 <;>
      simp only [hsf] at h <;> simp at h

lemma getAttachment_clean (w : World) (f : Faults) (mid aid : String) (v : Option String)
    (h : (GenericMailManager.getAttachment w f mid aid).result = .ok v) :
    cleanTrace f (GenericMailManager.getAttachment w f mid aid).trace :=
  downloadAttachment_clean w.imap f "INBOX" mid aid v h

lemma createDraft_clean (w : World) (f : Faults) (v : Option String × Option Bool)
    (_h : (GenericMailManager.createDraft w).result = .ok v) :
    cleanTrace f (GenericMailManager.createDraft w).trace :=
  cleanTrace_nil f

lemma getDraft_clean (w : World) (f : Faults) (id : String) (v : ParsedDraft)
    (h : (GenericMailManager.getDraft w f id).result = .ok v) :
    cleanTrace f (GenericMailManager.getDraft w f id).trace := by
  unfold GenericMailManager.getDraft at h ⊢
  cases hres : (ImapService.fetchMessage w.imap f "Drafts" id).result with
  | error e =>
    simp only [hres] at h
    simp at h
  | ok mo =>
    cases mo with
    | none =>
      simp only [hres] at h
      simp at h
    | some m =>
      have hcl : cleanTrace f (ImapService.fetchMessage w.imap f "Drafts" id).trace :=
        fetchMessage_clean w.imap f "Drafts" id (some m) hres
      simp only [hres]
      split
      · exact hcl
      · exact hcl

lemma create_clean (w : World) (f : Faults) (v : Option String)
    (h : (GenericMailManager.create w f).result = .ok v) :
    cleanTrace f (GenericMailManager.create w f).trace := by
  unfold GenericMailManager.create at h ⊢
  by_cases hsm : f.smtpFail = true
  · simp [hsm] at h
  · have hsm' : f.smtpFail = false := by simpa using hsm
    simp [hsm', cleanTrace, evFails]

lemma sendDraft_clean (w : World) (f : Faults) (id : String) (v : Unit)
    (h : (GenericMailManager.sendDraft w f id).result = .ok v) :
    cleanTrace f (GenericMailManager.sendDraft w f id).trace := by
  unfold GenericMailManager.sendDraft GenericMailManager.create at h ⊢
  by_cases hsm : f.smtpFail = true
  · simp [hsm] at h
  · have hsm' : f.smtpFail = false := by simpa using hsm
    simp only [hsm', Bool.false_eq_true, if_false] at h ⊢
    cases hres : (ImapService.setFlags w.imap f "Drafts" id ["\\Deleted"]).result with
    | error e2 =>
      simp only [hres] at h
      simp at h
    | ok u =>
      simp only [hres] at h ⊢
      refine cleanTrace_append f _ _ ?_
        (setFlags_clean w.imap f "Drafts" id ["\\Deleted"] u hres)
      intro e he
      simp only [List.mem_cons, List.not_mem_nil, or_false] at he
      subst he
      simp [evFails, hsm']

/-- C8 (amended): protocol-library errors are never converted into
success: for every manager operation (get, list, listDrafts, markAsRead,
markAsUnread, delete, modifyLabels, getAttachment, getDraft,
createDraft, create, sendDraft), over all mailbox states, arguments and
fault injections, a call that resolves has a clean trace — every
connect, STATUS, fetch, store, move, download, SMTP send, POP3 LIST and
POP3 RETR it issued succeeded, and no mailbox lock was acquired while
getMailboxLock was throwing — so a protocol error arising anywhere in
the call forces a rejection.  When the failing command is
getMailboxLock, get, list, markAsRead, markAsUnread, delete,
modifyLabels, getDraft and getAttachment reject with that protocol
error itself, and sendDraft rejects with a 500 StandardizedError
carrying it as cause.  Exceptions: the best-effort ImapService.disconnect
and Pop3Service.quit paths resolve regardless of errors, and get on the
POP3 path replaces a failed RETR with a 404 StandardizedError that
discards the original error. -/
theorem error_propagation_spec :
    (∀ w f id msgs, w.pop3 = some msgs → f.pop3RetrFail = true →
      (GenericMailManager.get w f id).result =
        .error (.standardized "Message not found" 404 Option.none)) ∧
    (∀ s f, (ImapService.disconnect s f).result = .ok ()) ∧
    (Pop3Service.quit.2 = .ok ()) ∧
    (∀ w f id v, (GenericMailManager.get w f id).result = .ok v →
      cleanTrace f (GenericMailManager.get w f id).trace) ∧
    (∀ w f folder pt mr v, (GenericMailManager.list w f folder pt mr).result = .ok v →
      cleanTrace f (GenericMailManager.list w f folder pt mr).trace) ∧
    (∀ w f pt mr v, (GenericMailManager.listDrafts w f pt mr).result = .ok v →
      cleanTrace f (GenericMailManager.listDrafts w f pt mr).trace) ∧
    (∀ w f tids v, (GenericMailManager.markAsRead w f tids).result = .ok v →
      cleanTrace f (GenericMailManager.markAsRead w f tids).trace) ∧
    (∀ w f tids v, (GenericMailManager.markAsUnread w f tids).result = .ok v →
      cleanTrace f (GenericMailManager.markAsUnread w f tids).trace) ∧
    (∀ w f id v, (GenericMailManager.delete w f id).result = .ok v →
      cleanTrace f (GenericMailManager.delete w f id).trace) ∧
    (∀ w f ids add rem v, (GenericMailManager.modifyLabels w f ids add rem).result = .ok v →
      cleanTrace f (GenericMailManager.modifyLabels w f ids add rem).trace) ∧
    (∀ w f mid aid v, (GenericMailManager.getAttachment w f mid aid).result = .ok v →
      cleanTrace f (GenericMailManager.getAttachment w f mid aid).trace) ∧
    (∀ w f id v, (GenericMailManager.getDraft w f id).result = .ok v →
      cleanTrace f (GenericMailManager.getDraft w f id).trace) ∧
    (∀ w f v, (GenericMailManager.createDraft w).result = .ok v →
      cleanTrace f (GenericMailManager.createDraft w).trace) ∧
    (∀ w f v, (GenericMailManager.create w f).result = .ok v →
      cleanTrace f (GenericMailManager.create w f).trace) ∧
    (∀ w f id v, (GenericMailManager.sendDraft w f id).result = .ok v →
      cleanTrace f (GenericMailManager.sendDraft w f id).trace) ∧
    (∀ w f id, w.pop3 = Option.none → f.connectFail = false → f.lockFail = true →
      (GenericMailManager.get w f id).result = .error (.protocol "getMailboxLock")) ∧
    (∀ w f folder pt mr, w.pop3 = Option.none → f.connectFail = false →
      f.lockFail = true →
      (GenericMailManager.list w f folder pt mr).result
        = .error (.protocol "getMailboxLock")) ∧
    (∀ w f id ids, f.connectFail = false → f.lockFail = true →
      (GenericMailManager.markAsRead w f (id :: ids)).result
        = .error (.protocol "getMailboxLock")) ∧
    (∀ w f id ids, f.connectFail = false → f.lockFail = true →
      (GenericMailManager.markAsUnread w f (id :: ids)).result
        = .error (.protocol "getMailboxLock")) ∧
    (∀ w f id, f.connectFail = false → f.lockFail = true →
      (GenericMailManager.delete w f id).result = .error (.protocol "getMailboxLock")) ∧
    (∀ w f ids id add rem, f.connectFail = false → f.lockFail = true →
      add.contains "STARRED" = true →
      (GenericMailManager.modifyLabels w f (id :: ids) add rem).result
        = .error (.protocol "getMailboxLock")) ∧
    (∀ w f id, f.connectFail = false → f.lockFail = true →
      (GenericMailManager.getDraft w f id).result
        = .error (.protocol "getMailboxLock")) ∧
    (∀ w f mid aid, f.connectFail = false → f.lockFail = true →
      (GenericMailManager.getAttachment w f mid aid).result
        = .error (.protocol "getMailboxLock")) ∧
    (∀ w f id, f.connectFail = false → f.lockFail = true → f.smtpFail = false →
      (GenericMailManager.sendDraft w f id).result =
        .error (.standardized "Failed to delete draft after sending" 500
          (some (.protocol "getMailboxLock"))) ∧
      errContains (.standardized "Failed to delete draft after sending" 500
          (some (.protocol "getMailboxLock"))) (.protocol "getMailboxLock") = true) := by
  refine ⟨?_, ?_, rfl, ?_, ?_, ?_, ?_, ?_, ?_, ?_, ?_, ?_, ?_, ?_, ?_, ?_, ?_, ?_, ?_,
    ?_, ?_, ?_, ?_, ?_⟩
  · intro w f id msgs hw hrf
    unfold GenericMailManager.get
    rw [hw]
    simp [Pop3Service.fetchMessage, hrf]
  · intro s f
    unfold ImapService.disconnect
    split
    · rfl
    · split
      · rfl
      · rfl
  · exact fun w f id v h => get_clean w f id v h
  · exact fun w f folder pt mr v h => list_clean w f folder pt mr v h
  · exact fun w f pt mr v h => listDrafts_clean w f pt mr v h
  · exact fun w f tids v h => markAsRead_clean w f tids v h
  · exact fun w f tids v h => markAsUnread_clean w f tids v h
  · exact fun w f id v h => delete_clean w f id v h
  · exact fun w f ids add rem v h => modifyLabels_clean w f ids add rem v h
  · exact fun w f mid aid v h => getAttachment_clean w f mid aid v h
  · exact fun w f id v h => getDraft_clean w f id v h
  · exact fun w f v h => createDraft_clean w f v h
  · exact fun w f v h => create_clean w f v h
  · exact fun w f id v h => sendDraft_clean w f id v h
  · intro w f id hp hcf hl
    unfold GenericMailManager.get
    rw [hp]
    obtain ⟨t, s2, hf⟩ := fetchMessage_lockfail w.imap f "INBOX" id hcf hl
    simp only [hf]
  · intro w f folder pt mr hp hcf hl
    unfold GenericMailManager.list
    rw [hp]
    obtain ⟨t, s2, hf⟩ := listMessages_lockfail w.imap f folder pt mr hcf hl
    simp only [hf]
  · intro w f id ids hcf hl
    unfold GenericMailManager.markAsRead GenericMailManager.markAsReadGo
    obtain ⟨t, s2, hf⟩ := setFlags_lockfail w.imap f "INBOX" id ["\\Seen"] hcf hl
    simp only [hf]
  · intro w f id ids hcf hl
    unfold GenericMailManager.markAsUnread GenericMailManager.markAsUnreadGo
    obtain ⟨t, s2, hf⟩ := unsetFlags_lockfail w.imap f "INBOX" id ["\\Seen"] hcf hl
    simp only [hf]
  · intro w f id hcf hl
    unfold GenericMailManager.delete
    obtain ⟨t1, s2, hmv⟩ := moveMessage_lockfail w.imap f "INBOX" id "Trash" hcf hl
    obtain ⟨t2, s3, hsf⟩ := setFlags_lockfail s2 f "INBOX" id ["\\Deleted"] hcf hl
    simp only [hmv]
    simp only [hsf]
  · intro w f ids id add rem hcf hl hstar
    unfold GenericMailManager.modifyLabels GenericMailManager.modifyLabelsGo
      GenericMailManager.modifyLabelsOne
    obtain ⟨t, s2, hsf⟩ := setFlags_lockfail w.imap f "INBOX" id ["\\Starred"] hcf hl
    simp only [hstar, if_true, hsf, GenericMailManager.seqRes]
  · intro w f id hcf hl
    unfold GenericMailManager.getDraft
    obtain ⟨t, s2, hf⟩ := fetchMessage_lockfail w.imap f "Drafts" id hcf hl
    simp only [hf]
  · intro w f mid aid hcf hl
    unfold GenericMailManager.getAttachment
    obtain ⟨t, s2, hf⟩ := downloadAttachment_lockfail w.imap f "INBOX" mid aid hcf hl
    simp only [hf]
  · intro w f id hcf hl hsm
    unfold GenericMailManager.sendDraft GenericMailManager.create
    obtain ⟨t, s2, hf⟩ := setFlags_lockfail w.imap f "Drafts" id ["\\Deleted"] hcf hl
    refine ⟨?_, by decide⟩
    simp only [hsm, Bool.false_eq_true, if_false]
    simp only [hf]

def c8world : World := ⟨⟨⟨true, false⟩, ⟨[]⟩⟩, some ["m"]⟩

def c8faults : Faults := { Faults.none with pop3RetrFail := true }

/-- C8 counterexample: on the POP3 read path, a protocol error from the
RETR command is caught and replaced by a 404 StandardizedError with no
cause: the original protocol-library error is neither re-raised nor
wrapped, contradicting the claim that it always is. -/
theorem pop3_get_error_swallow_counterexample :
    (GenericMailManager.get c8world c8faults "1").result =
      .error (.standardized "Message not found" 404 Option.none) ∧
    errContains (.standardized "Message not found" 404 Option.none)
      (.protocol "POP3 RETR failed") = false :=
  ⟨rfl, rfl⟩

theorem error_propagation_spec_witness :
    (GenericMailManager.get c8world c8faults "1").result =
      .error (.standardized "Message not found" 404 Option.none) :=
  error_propagation_spec.1 c8world c8faults "1" ["m"] rfl rfl
